import Mathlib

/-!
# Verification of the per-q-point self-energy engine (`core/qptanalyzer.py`)

Shallow embedding of the `QptAnalyzer` class. Numeric arrays become functions
over `Fin`-indexed axes; complex numbers are represented exactly by pairs of
rationals (`Cplx`); fallible code returns `Except String`.

External collaborators (Ddb, EigFile, FanFile, GkkFile, mathutil, constants)
are out of scope of the source under verification, so their outputs are either
carried as data/function fields of the analyzer state, or, where the claims
need their behavior, modelled from the specification (see the individual doc
comments starting with `Modelled from the spec:`).
-/

/-- Exact complex numbers with rational components.  This stands for the
`numpy` complex arrays of the source; all arithmetic is exact. -/
structure Cplx where
  re : ℚ
  im : ℚ
deriving DecidableEq

namespace Cplx

@[ext] theorem ext' {a b : Cplx} (hre : a.re = b.re) (him : a.im = b.im) : a = b := by
  cases a; cases b; simp_all

instance : Zero Cplx := ⟨⟨0, 0⟩⟩
instance : One Cplx := ⟨⟨1, 0⟩⟩
instance : Add Cplx := ⟨fun a b => ⟨a.re + b.re, a.im + b.im⟩⟩
instance : Neg Cplx := ⟨fun a => ⟨-a.re, -a.im⟩⟩
instance : Sub Cplx := ⟨fun a b => ⟨a.re - b.re, a.im - b.im⟩⟩
instance : Mul Cplx := ⟨fun a b => ⟨a.re * b.re - a.im * b.im, a.re * b.im + a.im * b.re⟩⟩
instance : SMul ℚ Cplx := ⟨fun q a => ⟨q * a.re, q * a.im⟩⟩

/-- The imaginary unit. -/
def I : Cplx := ⟨0, 1⟩

/-- Embedding of the rationals (the real data of the source). -/
def ofRat (q : ℚ) : Cplx := ⟨q, 0⟩

@[simp] theorem zero_re : (0 : Cplx).re = 0 := rfl
@[simp] theorem zero_im : (0 : Cplx).im = 0 := rfl
@[simp] theorem one_re : (1 : Cplx).re = 1 := rfl
@[simp] theorem one_im : (1 : Cplx).im = 0 := rfl
@[simp] theorem add_re (a b : Cplx) : (a + b).re = a.re + b.re := rfl
@[simp] theorem add_im (a b : Cplx) : (a + b).im = a.im + b.im := rfl
@[simp] theorem neg_re (a : Cplx) : (-a).re = -a.re := rfl
@[simp] theorem neg_im (a : Cplx) : (-a).im = -a.im := rfl
@[simp] theorem sub_re (a b : Cplx) : (a - b).re = a.re - b.re := rfl
@[simp] theorem sub_im (a b : Cplx) : (a - b).im = a.im - b.im := rfl
@[simp] theorem mul_re (a b : Cplx) : (a * b).re = a.re * b.re - a.im * b.im := rfl
@[simp] theorem mul_im (a b : Cplx) : (a * b).im = a.re * b.im + a.im * b.re := rfl
@[simp] theorem smul_re (q : ℚ) (a : Cplx) : (q • a).re = q * a.re := rfl
@[simp] theorem smul_im (q : ℚ) (a : Cplx) : (q • a).im = q * a.im := rfl
@[simp] theorem ofRat_re (q : ℚ) : (ofRat q).re = q := rfl
@[simp] theorem ofRat_im (q : ℚ) : (ofRat q).im = 0 := rfl

instance : CommRing Cplx where
  add_assoc a b c := by ext <;> simp <;> ring
  zero_add a := by ext <;> simp
  add_zero a := by ext <;> simp
  add_comm a b := by ext <;> simp <;> ring
  mul_assoc a b c := by ext <;> simp <;> ring
  one_mul a := by ext <;> simp
  mul_one a := by ext <;> simp
  left_distrib a b c := by ext <;> simp <;> ring
  right_distrib a b c := by ext <;> simp <;> ring
  mul_comm a b := by ext <;> simp <;> ring
  zero_mul a := by ext <;> simp
  mul_zero a := by ext <;> simp
  neg_add_cancel a := by ext <;> simp
  sub_eq_add_neg a b := by ext <;> simp <;> ring
  nsmul := nsmulRec
  zsmul := zsmulRec

instance : Module ℚ Cplx where
  one_smul a := by ext <;> simp
  mul_smul q r a := by ext <;> simp <;> ring
  smul_zero q := by ext <;> simp
  smul_add q a b := by ext <;> simp <;> ring
  add_smul q r a := by ext <;> simp <;> ring
  zero_smul a := by ext <;> simp

/-- Complex reciprocal, as computed elementwise by `1.0 / deno` in numpy:
`z⁻¹ = conj z / (re² + im²)` (total function; `0⁻¹ = 0` in the embedding). -/
instance : Inv Cplx := ⟨fun z => ⟨z.re / (z.re ^ 2 + z.im ^ 2), -z.im / (z.re ^ 2 + z.im ^ 2)⟩⟩

instance : Div Cplx := ⟨fun a b => a * b⁻¹⟩

@[simp] theorem inv_re (z : Cplx) : z⁻¹.re = z.re / (z.re ^ 2 + z.im ^ 2) := rfl
@[simp] theorem inv_im (z : Cplx) : z⁻¹.im = -z.im / (z.re ^ 2 + z.im ^ 2) := rfl

theorem div_def (a b : Cplx) : a / b = a * b⁻¹ := rfl

/-- Real part as an additive monoid homomorphism (to push through sums). -/
def reHom : Cplx →+ ℚ where
  toFun := re
  map_zero' := rfl
  map_add' _ _ := rfl

/-- Imaginary part as an additive monoid homomorphism. -/
def imHom : Cplx →+ ℚ where
  toFun := im
  map_zero' := rfl
  map_add' _ _ := rfl

theorem re_sum {ι : Type _} (s : Finset ι) (f : ι → Cplx) :
    (∑ x ∈ s, f x).re = ∑ x ∈ s, (f x).re := map_sum reHom f s

theorem im_sum {ι : Type _} (s : Finset ι) (f : ι → Cplx) :
    (∑ x ∈ s, f x).im = ∑ x ∈ s, (f x).im := map_sum imHom f s

theorem ne_zero_of_im_ne_zero {z : Cplx} (h : z.im ≠ 0) : z ≠ 0 := by
  intro hz; exact h (by rw [hz]; rfl)

end Cplx

/-! ## The analyzer state

`QptAnalyzer` (qptanalyzer.py, lines 16-53).  Sizes `nkpt`, `nband`, `natom`
are type-level parameters; `nmode = 3 * natom`.  File objects become
presence flags (the `fname`-truthiness convention of the source) together
with their data tensors; data supplied by external collaborator methods
(`get_reduced_displ_squared`, `get_bose`, `get_fermi_function`,
`get_gkk_squared`, `symmetrize_fan_degen`) is carried as data/function
fields, since those collaborators are outside the source under scrutiny. -/

namespace EPC

/-- A (kpt, band) array. -/
abbrev KN (nkpt nband : ℕ) (α : Type _) := Fin nkpt → Fin nband → α

/-- A (kpt, band, band, mode) array, as returned by `get_fan_ddw_gkk2_active`. -/
abbrev KNNO (nkpt nband natom : ℕ) :=
  Fin nkpt → Fin nband → Fin nband → Fin (3 * natom) → Cplx

structure QptAnalyzer (nkpt nband natom : ℕ) where
  /-- truthiness of `self.eigr2d.fname` -/
  eigr2d_present : Bool
  /-- truthiness of `self.fan.fname` -/
  fan_present : Bool
  /-- truthiness of `self.fan0.fname` -/
  fan0_present : Bool
  /-- truthiness of `self.gkk.fname` -/
  gkk_present : Bool
  /-- truthiness of `self.gkk0.fname` -/
  gkk0_present : Bool
  /-- q-point weight `self.wtq` -/
  wtq : ℚ
  /-- adiabatic broadening `self.smearing` -/
  smearing : ℚ
  /-- `self.temperatures` -/
  temperatures : List ℚ
  /-- `self.omegase` -/
  omegase : List ℚ
  /-- chemical potential `self.mu` (`None` allowed) -/
  mu : Option ℚ
  /-- `self.ddb.is_gamma` -/
  isGammaQ : Bool
  /-- phonon frequencies `self.ddb.omega[mode]` (complex; `.real` used) -/
  omega : Fin (3 * natom) → Cplx
  /-- `displ_red_FAN2` from `self.ddb.get_reduced_displ_squared()`,
  axes (mode, dir, dir, atom, atom) as contracted by the einsum strings -/
  displFAN2 : Fin (3 * natom) → Fin 3 → Fin 3 → Fin natom → Fin natom → Cplx
  /-- `displ_red_DDW2`, same layout -/
  displDDW2 : Fin (3 * natom) → Fin 3 → Fin 3 → Fin natom → Fin natom → Cplx
  /-- `self.ddb.get_bose(...)[mode, t]` as a function of the temperature value
  at entry `t` (Bose-Einstein factor; external collaborator) -/
  boseF : Fin (3 * natom) → ℚ → ℚ
  /-- `self.eig0.EIG[0, k, n]` (bare eigenvalues at k) -/
  eig0EIG : KN nkpt nband Cplx
  /-- `self.eigq.EIG[0, k, n]` (bare eigenvalues at k+q) -/
  eigqEIG : KN nkpt nband Cplx
  /-- `self.eigq.get_fermi_function(mu, ...)[0, k, n, t]` as a function of
  `mu` and the temperature value at entry `t` (external collaborator) -/
  fermiF : Option ℚ → ℚ → Fin nkpt → Fin nband → ℚ
  /-- `self.eig0.symmetrize_fan_degen` (external collaborator, abstract) -/
  symmFanDegen : KNNO nkpt nband natom → KNNO nkpt nband natom
  /-- `self.eigr2d.occ[0, 0, :]` -/
  eigr2dOcc : Fin nband → ℚ
  /-- `self.fan.occ[0, 0, :]` -/
  fanOcc : Fin nband → ℚ
  /-- `self.gkk.occ[0, 0, :]` -/
  gkkOcc : Fin nband → ℚ
  /-- `self.eigr2d.EIG2D[k, n, atom, dir, atom, dir]` -/
  eigr2dEIG2D : Fin nkpt → Fin nband → Fin natom → Fin 3 → Fin natom → Fin 3 → Cplx
  /-- `self.eigr2d0.EIG2D[k, n, atom, dir, atom, dir]` -/
  eigr2d0EIG2D : Fin nkpt → Fin nband → Fin natom → Fin 3 → Fin natom → Fin 3 → Cplx
  /-- `self.eigi2d.EIG2D[k, n, atom, dir, atom, dir]` -/
  eigi2dEIG2D : Fin nkpt → Fin nband → Fin natom → Fin 3 → Fin natom → Fin 3 → Cplx
  /-- `self.gkk.get_gkk_squared()[k, n, atom, dir, atom, dir, band]`
  (the trailing axis, labeled `m` in `einsum('kniajbm,...')`, is the
  other-band index) -/
  gkkSq : Fin nkpt → Fin nband → Fin natom → Fin 3 → Fin natom → Fin 3 →
    Fin nband → Cplx
  /-- `self.gkk0.get_gkk_squared()[k, n, atom, dir, atom, dir, band]` -/
  gkk0Sq : Fin nkpt → Fin nband → Fin natom → Fin 3 → Fin natom → Fin 3 →
    Fin nband → Cplx
  /-- `self.fan.FAN[k, n, atom, dir, atom, dir, band]` -/
  fanFAN : Fin nkpt → Fin nband → Fin natom → Fin 3 → Fin natom → Fin 3 →
    Fin nband → Cplx
  /-- `self.fan0.FAN[k, n, atom, dir, atom, dir, band]` -/
  fan0FAN : Fin nkpt → Fin nband → Fin natom → Fin 3 → Fin natom → Fin 3 →
    Fin nband → Cplx

variable {nkpt nband natom : ℕ}

namespace QptAnalyzer

/-- property `use_gkk` (lines 105-107). -/
def use_gkk (st : QptAnalyzer nkpt nband natom) : Bool :=
  st.gkk_present && st.gkk0_present

/-- property `has_active` (lines 109-111). -/
def has_active (st : QptAnalyzer nkpt nband natom) : Bool :=
  (st.fan_present && st.fan0_present) || st.use_gkk

/-- `self.ntemp` (lines 101-103). -/
def ntemp (st : QptAnalyzer nkpt nband natom) : ℕ := st.temperatures.length

/-- `self.nomegase` (lines 97-99). -/
def nomegase (st : QptAnalyzer nkpt nband natom) : ℕ := st.omegase.length

end QptAnalyzer

/-- Message of the exception raised by the `nkpt` / `nband` size properties
(lines 55-75) when no size-determining file is present. -/
def sizeMsg : String := "Dont know nkpt. No files to read."

/-- Message of the exception raised by `get_occ_nospin` (line 162). -/
def occMsg : String := "Dont know nband. No files to read."

/-- Message of the exception raised by `get_fan_ddw_gkk2_active`
(lines 297-299). -/
def activeMsg : String :=
  "You should provide GKK files or FAN files to compute active space contribution."

/-- Message standing for the python `AttributeError` hit when a method reads
`self.eigr2d.nkpt` (line 529) with no EIGR2D file provided. -/
def attrMsg : String := "AttributeError: eigr2d"

/-- Message standing for the python `IndexError` hit when row 0 of a
zero-length k-point axis is read (e.g. `occ[0,0,:]`, line 553). -/
def idxMsg : String := "IndexError: kpt 0"

/-- Message standing for the python `NameError` raised at line 1150:
`warnings.warn(...format(broadening))` where neither `warnings` (never
imported) nor `broadening` (never assigned) is a defined name. -/
def nameErrMsg : String := "NameError: name broadening is not defined"

namespace QptAnalyzer

/-- The exception behavior of the size properties `self.nkpt`, `self.nband`
(lines 55-75): a value is known iff one of the EIGR2D / FAN / GKK files is
present (the sizes themselves are type parameters of the embedding). -/
def checkSizeSource (st : QptAnalyzer nkpt nband natom) : Except String Unit :=
  if st.eigr2d_present || st.fan_present || st.gkk_present then pure ()
  else throw sizeMsg

/-- Spin normalization applied by `get_occ_nospin` (lines 164-165):
halve the whole row iff any raw entry equals `2.0`. -/
def normOcc (occ : Fin nband → ℚ) : Fin nband → ℚ :=
  if ∃ n, occ n = 2 then fun n => occ n / 2 else occ

/-- `get_occ_nospin` (lines 149-167): occupation row of the first populated
coupling source (EIGR2D, then FAN, then GKK), spin-normalized; raises when
no source is present. -/
def get_occ_nospin (st : QptAnalyzer nkpt nband natom) :
    Except String (Fin nband → ℚ) :=
  if st.eigr2d_present then pure (normOcc st.eigr2dOcc)
  else if st.fan_present then pure (normOcc st.fanOcc)
  else if st.gkk_present then pure (normOcc st.gkkOcc)
  else throw occMsg

/-- The loop of `get_max_val` (lines 174-178), rendered as index recursion:
`for f, E in zip(occ0, eig): if f < 0.5: break; E_last = E`.  `last` holds
`E_last`; the call at index `i` performs the test for element `i`. -/
def maxValGo (occ : Fin nband → ℚ) (eig : Fin nband → Cplx) :
    (i : ℕ) → Cplx → Cplx
  | i, last =>
    if h : i < nband then
      if occ ⟨i, h⟩ < 1/2 then last
      else maxValGo occ eig (i + 1) (eig ⟨i, h⟩)
    else last
termination_by i _ => nband - i

/-- The loop of `get_min_cond` (lines 187-189), as index recursion:
`for f, E in zip(occ0, eig): if f <= 0.5: break` and then `return E`.
At index `i` the loop variable `E` has just been bound to `eig i`; if the
test fails and `i` is the last index, the loop ends with `E = eig i`. -/
def minCondGo (occ : Fin nband → ℚ) (eig : Fin nband → Cplx) :
    (i : ℕ) → i < nband → Cplx
  | i, h =>
    if occ ⟨i, h⟩ ≤ 1/2 then eig ⟨i, h⟩
    else if h2 : i + 1 < nband then minCondGo occ eig (i + 1) h2
    else eig ⟨i, h⟩
termination_by i _ => nband - i

/-- `get_max_val` (lines 169-180).  Reads `eigq.EIG[0,0,:]` (k-point 0;
`IndexError` when there are no k-points) and starts with `E_last = eig[0]`
(`IndexError` when there are no bands). -/
def get_max_val (st : QptAnalyzer nkpt nband natom) : Except String Cplx := do
  let occ0 ← st.get_occ_nospin
  if hk : 0 < nkpt then
    if hb : 0 < nband then
      pure (maxValGo occ0 (fun n => st.eigqEIG ⟨0, hk⟩ n) 0 (st.eigqEIG ⟨0, hk⟩ ⟨0, hb⟩))
    else throw idxMsg
  else throw idxMsg

/-- `get_min_cond` (lines 182-191).  When there are no k-points the row read
fails, and when the band loop runs zero times the final `return E` hits an
unbound name; both crashes are rendered as the index-error message here. -/
def get_min_cond (st : QptAnalyzer nkpt nband natom) : Except String Cplx := do
  let occ0 ← st.get_occ_nospin
  if hk : 0 < nkpt then
    if hb : 0 < nband then
      pure (minCondGo occ0 (fun n => st.eigqEIG ⟨0, hk⟩ n) 0 hb)
    else throw idxMsg
  else throw idxMsg

/-- `find_fermi_level` (lines 193-198): midpoint of `get_max_val` and
`get_min_cond`. -/
def find_fermi_level (st : QptAnalyzer nkpt nband natom) : Except String Cplx := do
  let mv ← st.get_max_val
  let mc ← st.get_min_cond
  pure ((mv + mc) / Cplx.ofRat 2)

end QptAnalyzer

end EPC

namespace EPC

/-! ## Axis reduction primitive (`reduce_array`, lines 200-226)

`einsum('otlkn->' + final_indices, arr)`: the output retains, in the fixed
order (mode `o`, temperature `t`, frequency `l`, kpt `k`, band `n`), exactly
the flagged axes plus `kn`, and sums over the omitted ones. -/

/-- Output shape of `reduce_array` for each flag combination. -/
def RedT (nm nt nw nk nb : ℕ) : Bool → Bool → Bool → Type
  | false, false, false => Fin nk → Fin nb → Cplx
  | false, false, true  => Fin nw → Fin nk → Fin nb → Cplx
  | false, true,  false => Fin nt → Fin nk → Fin nb → Cplx
  | false, true,  true  => Fin nt → Fin nw → Fin nk → Fin nb → Cplx
  | true,  false, false => Fin nm → Fin nk → Fin nb → Cplx
  | true,  false, true  => Fin nm → Fin nw → Fin nk → Fin nb → Cplx
  | true,  true,  false => Fin nm → Fin nt → Fin nk → Fin nb → Cplx
  | true,  true,  true  => Fin nm → Fin nt → Fin nw → Fin nk → Fin nb → Cplx

/-- `reduce_array(arr, mode, temperature, omega)` (lines 200-226). -/
def reduce_array {nm nt nw nk nb : ℕ}
    (arr : Fin nm → Fin nt → Fin nw → Fin nk → Fin nb → Cplx) :
    (m t w : Bool) → RedT nm nt nw nk nb m t w
  | false, false, false => fun k n => ∑ o, ∑ t, ∑ l, arr o t l k n
  | false, false, true  => fun l k n => ∑ o, ∑ t, arr o t l k n
  | false, true,  false => fun t k n => ∑ o, ∑ l, arr o t l k n
  | false, true,  true  => fun t l k n => ∑ o, arr o t l k n
  | true,  false, false => fun o k n => ∑ t, ∑ l, arr o t l k n
  | true,  false, true  => fun o l k n => ∑ t, arr o t l k n
  | true,  true,  false => fun o t k n => ∑ l, arr o t l k n
  | true,  true,  true  => fun o t l k n => arr o t l k n

/-- Reference summation over the first three axes, keeping only (kpt, band)
(spec section 8, round-trip property). -/
def referenceSum {nm nt nw nk nb : ℕ}
    (arr : Fin nm → Fin nt → Fin nw → Fin nk → Fin nb → Cplx) :
    Fin nk → Fin nb → Cplx :=
  fun k n => ∑ x : Fin nm × Fin nt × Fin nw, arr x.1 x.2.1 x.2.2 k n

variable {nkpt nband natom : ℕ}

/-! ## Degenerate-band averaging (external collaborator) -/

/-- The set of bands degenerate with band `n` at k-point `k` (equal bare
eigenvalue in `eig0`). -/
def degenGroup (st : QptAnalyzer nkpt nband natom) (k : Fin nkpt) (n : Fin nband) :
    Finset (Fin nband) :=
  Finset.univ.filter (fun m => st.eig0EIG k m = st.eig0EIG k n)

/-- Modelled from the spec: `self.eig0.make_average` lives in the EigFile
collaborator, whose code is not under `src/`.  Spec section 6: "make_average
(tensor) → tensor (degenerate-band symmetrization over the trailing band
axis)": each entry is replaced by the mean over the group of bands
degenerate with it. -/
def make_average {α : Type _} [AddCommMonoid α] [Module ℚ α]
    (st : QptAnalyzer nkpt nband natom) (A : KN nkpt nband α) : KN nkpt nband α :=
  fun k n => (((degenGroup st k n).card : ℚ))⁻¹ • ∑ m ∈ degenGroup st k n, A k m

theorem make_average_add {α : Type _} [AddCommMonoid α] [Module ℚ α]
    (st : QptAnalyzer nkpt nband natom) (A B : KN nkpt nband α) :
    make_average st (fun k n => A k n + B k n)
      = fun k n => make_average st A k n + make_average st B k n := by
  funext k n
  simp [make_average, Finset.sum_add_distrib, smul_add]

namespace QptAnalyzer

/-! ## Sternheimer contribution engine (`get_fan_ddw_sternheimer`, lines 228-286) -/

/-- Temperature-axis length of the Sternheimer tensors: `ntemp` when the
temperature flag is set, else a unit axis. -/
def sternNt (st : QptAnalyzer nkpt nband natom) : Bool → ℕ
  | true => st.ntemp
  | false => 1

/-- Frequency-axis length of the Sternheimer tensors. -/
def sternNw (st : QptAnalyzer nkpt nband natom) : Bool → ℕ
  | true => st.nomegase
  | false => 1

/-- `tdep = 2 * bose + 1 if temperature else ones((nmode, 1))` (line 269). -/
def sternTdep (st : QptAnalyzer nkpt nband natom) :
    (t : Bool) → Fin (3 * natom) → Fin (sternNt st t) → ℚ
  | true => fun o tt => 2 * st.boseF o (st.temperatures.get ⟨tt.1, tt.2⟩) + 1
  | false => fun _ _ => 1

/-- `fan = einsum('knabij,objai->okn', self.eigr2d.EIG2D, displ_red_FAN2)`
(line 265). -/
def fanSternBase (st : QptAnalyzer nkpt nband natom)
    (o : Fin (3 * natom)) (k : Fin nkpt) (n : Fin nband) : Cplx :=
  ∑ a : Fin natom, ∑ b : Fin 3, ∑ i : Fin natom, ∑ j : Fin 3,
    st.eigr2dEIG2D k n a b i j * st.displFAN2 o b j a i

/-- `ddw = einsum('knabij,objai->okn', self.eigr2d0.EIG2D, displ_red_DDW2)`
(line 266). -/
def ddwSternBase (st : QptAnalyzer nkpt nband natom)
    (o : Fin (3 * natom)) (k : Fin nkpt) (n : Fin nband) : Cplx :=
  ∑ a : Fin natom, ∑ b : Fin 3, ∑ i : Fin natom, ∑ j : Fin 3,
    st.eigr2d0EIG2D k n a b i j * st.displDDW2 o b j a i

/-- The five-axis Sternheimer fan tensor before reduction (lines 275-280):
base value times `tdep`, broadcast (times `ones`) along the frequency axis. -/
def stern5fan (st : QptAnalyzer nkpt nband natom) (t w : Bool) :
    Fin (3 * natom) → Fin (sternNt st t) → Fin (sternNw st w) →
      Fin nkpt → Fin nband → Cplx :=
  fun o tt _l k n => sternTdep st t o tt • fanSternBase st o k n

/-- Five-axis Sternheimer ddw tensor before reduction. -/
def stern5ddw (st : QptAnalyzer nkpt nband natom) (t w : Bool) :
    Fin (3 * natom) → Fin (sternNt st t) → Fin (sternNw st w) →
      Fin nkpt → Fin nband → Cplx :=
  fun o tt _l k n => sternTdep st t o tt • ddwSternBase st o k n

/-- Value of the reduced Sternheimer fan contribution. -/
def sternFanVal (st : QptAnalyzer nkpt nband natom) (m t w : Bool) :
    RedT (3 * natom) (sternNt st t) (sternNw st w) nkpt nband m t w :=
  reduce_array (stern5fan st t w) m t w

/-- Value of the reduced Sternheimer ddw contribution. -/
def sternDdwVal (st : QptAnalyzer nkpt nband natom) (m t w : Bool) :
    RedT (3 * natom) (sternNt st t) (sternNw st w) nkpt nband m t w :=
  reduce_array (stern5ddw st t w) m t w

/-- `get_fan_ddw_sternheimer` (lines 228-286).  The method begins by reading
the `nkpt`/`nband` size properties, which raise when no size-determining
file is present. -/
def get_fan_ddw_sternheimer (st : QptAnalyzer nkpt nband natom) (m t w : Bool) :
    Except String
      (RedT (3 * natom) (sternNt st t) (sternNw st w) nkpt nband m t w ×
       RedT (3 * natom) (sternNt st t) (sternNw st w) nkpt nband m t w) := do
  let _ ← st.checkSizeSource
  pure (sternFanVal st m t w, sternDdwVal st m t w)

/-! ## Active-space coupling tensor builder (`get_fan_ddw_gkk2_active`,
lines 288-320) -/

/-- `gkk2`: the squared coupling at q (lines 304-309). -/
def gkk2Tensor (st : QptAnalyzer nkpt nband natom) :
    Fin nkpt → Fin nband → Fin natom → Fin 3 → Fin natom → Fin 3 →
      Fin nband → Cplx :=
  if st.use_gkk then st.gkkSq else st.fanFAN

/-- `gkk02`: the squared coupling at q = 0 (lines 304-309). -/
def gkk02Tensor (st : QptAnalyzer nkpt nband natom) :
    Fin nkpt → Fin nband → Fin natom → Fin 3 → Fin natom → Fin 3 →
      Fin nband → Cplx :=
  if st.use_gkk then st.gkk0Sq else st.fan0FAN

/-- `fan = einsum('kniajbm,oabij->knmo', gkk2, displ_red_FAN2)` (line 312):
the raw (unsymmetrized) fan numerator. -/
def rawFanNum (st : QptAnalyzer nkpt nband natom) : KNNO nkpt nband natom :=
  fun k n m o => ∑ i : Fin natom, ∑ a : Fin 3, ∑ j : Fin natom, ∑ b : Fin 3,
    gkk2Tensor st k n i a j b m * st.displFAN2 o a b i j

/-- `ddw = einsum('kniajbm,oabij->knmo', gkk02, displ_red_DDW2)` (line 313):
the raw (unsymmetrized) ddw numerator. -/
def rawDdwNum (st : QptAnalyzer nkpt nband natom) : KNNO nkpt nband natom :=
  fun k n m o => ∑ i : Fin natom, ∑ a : Fin 3, ∑ j : Fin natom, ∑ b : Fin 3,
    gkk02Tensor st k n i a j b m * st.displDDW2 o a b i j

/-- `fan_num` as returned: symmetrized only at the Gamma point
(lines 317-318). -/
def fanNumVal (st : QptAnalyzer nkpt nband natom) : KNNO nkpt nband natom :=
  if st.isGammaQ then st.symmFanDegen (rawFanNum st) else rawFanNum st

/-- `ddw_num` as returned: symmetrized unconditionally (line 316). -/
def ddwNumVal (st : QptAnalyzer nkpt nband natom) : KNNO nkpt nband natom :=
  st.symmFanDegen (rawDdwNum st)

/-- `get_fan_ddw_gkk2_active` (lines 288-320). -/
def get_fan_ddw_gkk2_active (st : QptAnalyzer nkpt nband natom) :
    Except String (KNNO nkpt nband natom × KNNO nkpt nband natom) :=
  if st.has_active then pure (fanNumVal st, ddwNumVal st) else throw activeMsg

end QptAnalyzer

end EPC

namespace EPC

variable {nkpt nband natom : ℕ}

namespace QptAnalyzer

/-! ## Active-space transition engine (`get_fan_ddw_active`, lines 322-479)

The aggregators under verification call this method with `mode=False`,
`temperature=False`, `omega=False` only, so the embedding specializes those
three flags to `False` (the temperature and frequency axes then have unit
length and `temperatures = omega_se = zeros(1)`); the `dynamical` flag is
kept.  The energy denominators are defined standalone (with an arbitrary
real frequency offset `wl`, covering the `omega=True` mesh as well) and are
shared with the theorems about them. -/

/-- `omega_q`: real phonon frequencies in the dynamical scheme, zeros in the
static scheme (lines 364-367). -/
def activeOmegaQ (st : QptAnalyzer nkpt nband natom) (dyn : Bool)
    (o : Fin (3 * natom)) : ℚ :=
  if dyn then (st.omega o).re else 0

/-- `delta_E_ddw[k,n,m] = E0[k,n] - E0[k,m] - (2*occ0[m]-1)*smearing*1j`
(lines 389-391). -/
def deltaEddwD (st : QptAnalyzer nkpt nband natom) (occ0 : Fin nband → ℚ)
    (k : Fin nkpt) (n m : Fin nband) : Cplx :=
  ⟨(st.eig0EIG k n).re - (st.eig0EIG k m).re, -((2 * occ0 m - 1) * st.smearing)⟩

/-- `delta_E[k,n] = E0[k,n] - Eq[k,kband] - (2*occ0[kband]-1)*smearing*1j`
(lines 439-441). -/
def fanDeltaE (st : QptAnalyzer nkpt nband natom) (occ0 : Fin nband → ℚ)
    (kband : Fin nband) (k : Fin nkpt) (n : Fin nband) : Cplx :=
  ⟨(st.eig0EIG k n).re - (st.eigqEIG k kband).re, -((2 * occ0 kband - 1) * st.smearing)⟩

/-- `deno1 = delta_E + omega_se[l] - omega_q[o]` (lines 445-450); `wl` is
the real frequency-mesh offset (`0` when `omega=False`). -/
def fanDeno1 (st : QptAnalyzer nkpt nband natom) (occ0 : Fin nband → ℚ)
    (dyn : Bool) (kband : Fin nband) (k : Fin nkpt) (n : Fin nband)
    (wl : ℚ) (o : Fin (3 * natom)) : Cplx :=
  fanDeltaE st occ0 kband k n + Cplx.ofRat wl - Cplx.ofRat (activeOmegaQ st dyn o)

/-- `deno2 = delta_E + omega_se[l] + omega_q[o]` (lines 458-459). -/
def fanDeno2 (st : QptAnalyzer nkpt nband natom) (occ0 : Fin nband → ℚ)
    (dyn : Bool) (kband : Fin nband) (k : Fin nkpt) (n : Fin nband)
    (wl : ℚ) (o : Fin (3 * natom)) : Cplx :=
  fanDeltaE st occ0 kband k n + Cplx.ofRat wl + Cplx.ofRat (activeOmegaQ st dyn o)

/-- The active ddw tensor, reduced with all flags `False` (lines 385-411):
`ddw = einsum('knmo,knm->okn', ddw_num, 1/delta_E_ddw)`, unit temperature
factor, broadcast along the unit frequency axis, then summed.  The unit
temperature and frequency axes of the five-axis array are retained
literally. -/
def activeDdwCoreFF (st : QptAnalyzer nkpt nband natom) (occ0 : Fin nband → ℚ)
    (ddw_num : KNNO nkpt nband natom) : KN nkpt nband Cplx :=
  reduce_array
    (fun o (_t : Fin 1) (_l : Fin 1) k n =>
      ∑ m, ddw_num k n m o * (deltaEddwD st occ0 k n m)⁻¹)
    false false false

/-- The active fan tensor, reduced with all flags `False` (lines 414-477).
With `temperature=False`, `n_B = 0` and the Fermi factor is evaluated at
`T = 0`, so `num1[k,n] = 1 - f(k,n)` and `num2[k,n] = f(k,n)` (note the
source indexes the occupation by the outer band `n`, lines 427-433); with
`omega=False`, `omega_se = zeros(1)`.  The `kband` loop accumulates
`einsum('kno,oknlt->otlkn', fan_num[:,:,kband,:], div1 + div2)`. -/
def activeFanCoreFF (st : QptAnalyzer nkpt nband natom) (dyn : Bool)
    (occ0 : Fin nband → ℚ) (fan_num : KNNO nkpt nband natom) :
    KN nkpt nband Cplx :=
  reduce_array
    (fun o (_t : Fin 1) (_l : Fin 1) k n =>
      ∑ kband,
        fan_num k n kband o *
          ((1 - st.fermiF st.mu 0 k n) • (fanDeno1 st occ0 dyn kband k n 0 o)⁻¹
            + (st.fermiF st.mu 0 k n) • (fanDeno2 st occ0 dyn kband k n 0 o)⁻¹))
    false false false

/-- `get_fan_ddw_active` at `mode=False, omega=False, temperature=False`
(lines 322-479), with the `dynamical` flag kept. -/
def get_fan_ddw_active_FF (st : QptAnalyzer nkpt nband natom) (dyn : Bool) :
    Except String (KN nkpt nband Cplx × KN nkpt nband Cplx) := do
  let _ ← st.checkSizeSource
  let occ0 ← st.get_occ_nospin
  let fnd ← st.get_fan_ddw_gkk2_active
  pure (activeFanCoreFF st dyn occ0 fnd.1, activeDdwCoreFF st occ0 fnd.2)

/-- `get_fan_ddw` (lines 481-489): Sternheimer plus active contributions.
Note that the source ignores its own keyword arguments and always passes
`mode=False, temperature=False, omega=False, dynamical=False` to both
engines. -/
def get_fan_ddw (st : QptAnalyzer nkpt nband natom) :
    Except String (KN nkpt nband Cplx × KN nkpt nband Cplx) := do
  let s ← st.get_fan_ddw_sternheimer false false false
  let a ← st.get_fan_ddw_active_FF false
  pure (fun k n => a.1 k n + s.1 k n, fun k n => a.2 k n + s.2 k n)

/-- `get_zpr_static` (lines 502-514):
`zpr = make_average(wtq * (fan - ddw).real)`. -/
def get_zpr_static (st : QptAnalyzer nkpt nband natom) :
    Except String (KN nkpt nband ℚ) := do
  let fd ← st.get_fan_ddw
  pure (make_average st (fun k n => st.wtq * (fd.1 k n - fd.2 k n).re))

/-- The spin-normalized occupation row that `get_occ_nospin` returns when a
coupling source is present. -/
def occ_nospin_val (st : QptAnalyzer nkpt nband natom) : Fin nband → ℚ :=
  normOcc (if st.eigr2d_present then st.eigr2dOcc
           else if st.fan_present then st.fanOcc else st.gkkOcc)

theorem get_occ_nospin_of_present (st : QptAnalyzer nkpt nband natom)
    (h : st.eigr2d_present || st.fan_present || st.gkk_present) :
    st.get_occ_nospin = Except.ok (occ_nospin_val st) := by
  unfold get_occ_nospin occ_nospin_val
  cases h1 : st.eigr2d_present <;> cases h2 : st.fan_present <;>
    cases h3 : st.gkk_present <;> simp_all [pure, Except.pure]

/-- A coupling source usable for the size properties exists whenever the
active-space data is available. -/
theorem size_source_of_has_active (st : QptAnalyzer nkpt nband natom)
    (h : st.has_active) :
    st.eigr2d_present || st.fan_present || st.gkk_present := by
  unfold has_active use_gkk at h
  cases h1 : st.eigr2d_present <;> cases h2 : st.fan_present <;>
    cases h3 : st.gkk_present <;> simp_all

theorem checkSizeSource_of_present (st : QptAnalyzer nkpt nband natom)
    (h : st.eigr2d_present || st.fan_present || st.gkk_present) :
    st.checkSizeSource = Except.ok () := by
  unfold checkSizeSource
  simp [h, pure, Except.pure]

end QptAnalyzer

end EPC

namespace EPC

/-- The IEEE-double value of `np.pi`, as an exact rational
(`7074237752028440 * 2^-51`). -/
def npPi : ℚ := 884279719003555 / 281474976710656

/-- Modelled from the spec: `delta_lorentzian` lives in `core/mathutil.py`,
which is not under `src/`.  Spec section 4.6: the static/broadening paths
use "a Lorentzian approximation to the Dirac delta", i.e.
`delta_lorentzian(x, eta) = (eta / pi) / (x^2 + eta^2)` (normalized so that
`pi * delta_lorentzian` is the plain Lorentzian `eta / (x^2 + eta^2)`);
`pi` is the same double constant `np.pi`. -/
def delta_lorentzian (x eta : ℚ) : ℚ := (eta / npPi) / (x ^ 2 + eta ^ 2)

/-- Modelled from the spec: the tolerance `tol12` from `core/constants.py`
(not under `src/`), i.e. `10^-12`. -/
def tol12 : ℚ := 1 / 1000000000000

/-- Real part of the elementwise complex reciprocal,
`real(deno) / (real(deno)^2 + imag(deno)^2)` (lines 994 and 1007). -/
def realInvPart (z : Cplx) : ℚ := z.re / (z.re ^ 2 + z.im ^ 2)

variable {nkpt nband natom : ℕ}

namespace QptAnalyzer

/-- The real energy difference `E0[k,n] - Eq[k,m]` (lines 645-646, 701-702,
894-895). -/
def deltaEreal (st : QptAnalyzer nkpt nband natom)
    (k : Fin nkpt) (n m : Fin nband) : ℚ :=
  (st.eig0EIG k n).re - (st.eigqEIG k m).re

/-- The real energy difference `E0[k,n] - E0[k,m]` (lines 897-898). -/
def deltaEddwReal (st : QptAnalyzer nkpt nband natom)
    (k : Fin nkpt) (n m : Fin nband) : ℚ :=
  (st.eig0EIG k n).re - (st.eig0EIG k m).re

/-- The static-TDR fan denominator `delta_E^2 + smearing^2` (line 904). -/
def tdrDeno (st : QptAnalyzer nkpt nband natom)
    (k : Fin nkpt) (n m : Fin nband) : ℚ :=
  deltaEreal st k n m ^ 2 + st.smearing ^ 2

/-- The static-TDR ddw denominator `delta_E_ddw^2 + smearing^2` (line 916). -/
def tdrDenoDdw (st : QptAnalyzer nkpt nband natom)
    (k : Fin nkpt) (n m : Fin nband) : ℚ :=
  deltaEddwReal st k n m ^ 2 + st.smearing ^ 2

/-- `bose[mode, t]` for the analyzer temperature list (external collaborator
value, line 875). -/
def boseAt (st : QptAnalyzer nkpt nband natom) (o : Fin (3 * natom))
    (t : Fin st.ntemp) : ℚ :=
  st.boseF o (st.temperatures.get ⟨t.1, t.2⟩)

/-! ## `get_zpr_dynamical` (lines 516-619) -/

/-- The inline active fan term of `get_zpr_dynamical` (lines 577-604):
`fan_active = einsum('knmo,omkn->kn', fan_num, div1 + div2)` with
`num1 = 1 - occ`, `num2 = occ` indexed by the other band `m`, the Fermi
occupation taken at k-point 0 and `T = 0` (lines 564-566, 586-587). -/
def zprDynFanActive (st : QptAnalyzer nkpt nband natom) (occD : Fin nband → ℚ)
    (fan_num : KNNO nkpt nband natom) : KN nkpt nband Cplx :=
  fun k n =>
    ∑ m, ∑ o,
      fan_num k n m o *
        ((1 - occD m) • (fanDeno1 st occD true m k n 0 o)⁻¹
          + occD m • (fanDeno2 st occD true m k n 0 o)⁻¹)

/-- `get_zpr_dynamical` (lines 516-619).  Reads `self.eigr2d.nkpt`
(attribute error when the EIGR2D file is absent, line 529) and
`occ[0,0,:]` (index error when there are no k-points, lines 553, 566);
the ddw active term comes from `get_fan_ddw_active(dynamical=True)`
(line 607) while the fan active term is the inline computation; the result
is `(fan - ddw) * wtq`, averaged, with no real part taken (lines 612-617). -/
def get_zpr_dynamical (st : QptAnalyzer nkpt nband natom) :
    Except String (KN nkpt nband Cplx) := do
  if st.eigr2d_present then
    let s ← st.get_fan_ddw_sternheimer false false false
    let fnd ← st.get_fan_ddw_gkk2_active
    if hk : 0 < nkpt then
      let occD : Fin nband → ℚ := fun m => st.fermiF st.mu 0 ⟨0, hk⟩ m
      let a ← st.get_fan_ddw_active_FF true
      pure (make_average st (fun k n =>
        st.wtq • ((s.1 k n + zprDynFanActive st occD fnd.1 k n)
          - (s.2 k n + a.2 k n))))
    else throw idxMsg
  else throw attrMsg

/-! ## ZPB aggregators (lines 621-719) -/

/-- The active fan term of `get_zpb_static` (lines 705-714):
`fan_add = einsum('ijkl,kij->ij', fan_num, deltasign)` with
`deltasign[m,k,n] = -(2*occ[m]-1) * pi * delta_lorentzian(delta_E, smearing)`
(the mode axis of `fan_num` is summed, the delta factor is mode-independent). -/
def zpbStaticFanAdd (st : QptAnalyzer nkpt nband natom) (occ0 : Fin nband → ℚ)
    (fan_num : KNNO nkpt nband natom) : KN nkpt nband Cplx :=
  fun k n =>
    ∑ m, ∑ o,
      (-(2 * occ0 m - 1) * (npPi * delta_lorentzian (deltaEreal st k n m) st.smearing))
        • fan_num k n m o

/-- `get_zpb_static` (lines 677-719): active-space contribution only;
`zpb = make_average(fan_add * wtq)` with no ddw subtraction (`ddw_num` is
computed and dropped, line 698). -/
def get_zpb_static (st : QptAnalyzer nkpt nband natom) :
    Except String (KN nkpt nband Cplx) := do
  let _ ← st.checkSizeSource
  let occ0 ← st.get_occ_nospin
  let fnd ← st.get_fan_ddw_gkk2_active
  pure (make_average st (fun k n => st.wtq • zpbStaticFanAdd st occ0 fnd.1 k n))

/-- The active fan term of `get_zpb_dynamical` (lines 644-670):
`num1 = -(1-occ)*(2*occ-1)`, `num2 = -occ*(2*occ-1)` paired with Lorentzian
deltas of `delta_E` shifted down resp. up by `omega[mode]`. -/
def zpbDynFanAdd (st : QptAnalyzer nkpt nband natom) (occ0 : Fin nband → ℚ)
    (fan_num : KNNO nkpt nband natom) : KN nkpt nband Cplx :=
  fun k n =>
    ∑ m, ∑ o,
      ((-(1 - occ0 m) * (2 * occ0 m - 1))
          * (npPi * delta_lorentzian (deltaEreal st k n m - (st.omega o).re) st.smearing)
        + (-occ0 m * (2 * occ0 m - 1))
          * (npPi * delta_lorentzian (deltaEreal st k n m + (st.omega o).re) st.smearing))
        • fan_num k n m o

/-- `get_zpb_dynamical` (lines 621-675): active-space contribution only;
`zpb = make_average(fan_add * wtq)` with no ddw subtraction (`ddw_num` is
computed and dropped, line 642). -/
def get_zpb_dynamical (st : QptAnalyzer nkpt nband natom) :
    Except String (KN nkpt nband Cplx) := do
  let _ ← st.checkSizeSource
  let occ0 ← st.get_occ_nospin
  let fnd ← st.get_fan_ddw_gkk2_active
  pure (make_average st (fun k n => st.wtq • zpbDynFanAdd st occ0 fnd.1 k n))

/-! ## TDR aggregators (lines 860-1025) -/

/-- The active fan term of `get_tdr_static` (lines 894-910):
`fan_add[t,k,n] = sum_{m,o} fan_num[k,n,m,o] * (2*bose[o,t]+1)
* delta_E[k,n,m] / (delta_E[k,n,m]^2 + smearing^2)`. -/
def tdrStaticFanAdd (st : QptAnalyzer nkpt nband natom)
    (fan_num : KNNO nkpt nband natom) :
    Fin st.ntemp → Fin nkpt → Fin nband → Cplx :=
  fun t k n =>
    ∑ m, ∑ o,
      ((2 * boseAt st o t + 1) * (deltaEreal st k n m * (1 / tdrDeno st k n m)))
        • fan_num k n m o

/-- The active ddw term of `get_tdr_static` (lines 897-921), analogous with
`delta_E_ddw` (which vanishes on the band diagonal). -/
def tdrStaticDdwAdd (st : QptAnalyzer nkpt nband natom)
    (ddw_num : KNNO nkpt nband natom) :
    Fin st.ntemp → Fin nkpt → Fin nband → Cplx :=
  fun t k n =>
    ∑ m, ∑ o,
      ((2 * boseAt st o t + 1) * (deltaEddwReal st k n m * (1 / tdrDenoDdw st k n m)))
        • ddw_num k n m o

/-- `get_tdr_static` (lines 860-934): Sternheimer (temperature-resolved)
plus active terms, `tdr = (fan - ddw) * wtq`, averaged, transposed to
(kpt, band, temperature); no real part taken. -/
def get_tdr_static (st : QptAnalyzer nkpt nband natom) :
    Except String (Fin nkpt → Fin nband → Fin st.ntemp → Cplx) := do
  let _ ← st.checkSizeSource
  let s ← st.get_fan_ddw_sternheimer false true false
  let fnd ← st.get_fan_ddw_gkk2_active
  pure (fun k n t =>
    make_average st (fun k2 n2 =>
      st.wtq • ((s.1 t k2 n2 + tdrStaticFanAdd st fnd.1 t k2 n2)
        - (s.2 t k2 n2 + tdrStaticDdwAdd st fnd.2 t k2 n2))) k n)

/-- The active ddw term of `get_tdr_dynamical` (lines 970-976):
`ddw_add[t,k,n] = sum_m (sum_o ddw_num[k,n,m,o]*(2*bose[o,t]+1))
/ delta_E_ddw[k,n,m]` with the complex broadened `delta_E_ddw`. -/
def tdrDynDdwAdd (st : QptAnalyzer nkpt nband natom) (occ0 : Fin nband → ℚ)
    (ddw_num : KNNO nkpt nband natom) :
    Fin st.ntemp → Fin nkpt → Fin nband → Cplx :=
  fun t k n =>
    ∑ m, (∑ o, (2 * boseAt st o t + 1) • ddw_num k n m o)
      * (deltaEddwD st occ0 k n m)⁻¹

/-- The active fan term of `get_tdr_dynamical` (lines 978-1012): numerators
`bose + 1 - occ` / `bose + occ` times the REAL part of the reciprocal of
the broadened denominators (lines 994, 1007). -/
def tdrDynFanAdd (st : QptAnalyzer nkpt nband natom) (occ0 : Fin nband → ℚ)
    (fan_num : KNNO nkpt nband natom) :
    Fin st.ntemp → Fin nkpt → Fin nband → Cplx :=
  fun t k n =>
    ∑ m, ∑ o,
      ((boseAt st o t + 1 - occ0 m) * realInvPart (fanDeno1 st occ0 true m k n 0 o)
        + (boseAt st o t + occ0 m) * realInvPart (fanDeno2 st occ0 true m k n 0 o))
        • fan_num k n m o

/-- `get_tdr_dynamical` (lines 936-1025): Sternheimer (temperature-resolved)
plus active terms, `tdr = (fan - ddw) * wtq`, averaged, transposed to
(kpt, band, temperature); no real part taken. -/
def get_tdr_dynamical (st : QptAnalyzer nkpt nband natom) :
    Except String (Fin nkpt → Fin nband → Fin st.ntemp → Cplx) := do
  let _ ← st.checkSizeSource
  let s ← st.get_fan_ddw_sternheimer false true false
  let fnd ← st.get_fan_ddw_gkk2_active
  let occ0 ← st.get_occ_nospin
  pure (fun k n t =>
    make_average st (fun k2 n2 =>
      st.wtq • ((s.1 t k2 n2 + tdrDynFanAdd st occ0 fnd.1 t k2 n2)
        - (s.2 t k2 n2 + tdrDynDdwAdd st occ0 fnd.2 t k2 n2))) k n)

/-! ## `get_zpb_static_nosplit` (lines 1129-1154) -/

/-- `fan_corrQ = einsum('ijklmn,olnkm->oij', self.eigi2d.EIG2D,
displ_red_FAN2)` (line 1144). -/
def fanCorrQ (st : QptAnalyzer nkpt nband natom)
    (o : Fin (3 * natom)) (k : Fin nkpt) (n : Fin nband) : Cplx :=
  ∑ a : Fin natom, ∑ b : Fin 3, ∑ i : Fin natom, ∑ j : Fin 3,
    st.eigi2dEIG2D k n a b i j * st.displFAN2 o b j a i

/-- The pre-average no-split ZPB value `pi * sum_mode(fan_corrQ) * wtq`
(lines 1146-1147). -/
def zpbNosplitVal (st : QptAnalyzer nkpt nband natom) : KN nkpt nband Cplx :=
  fun k n => st.wtq • (npPi • ∑ o, fanCorrQ st o k n)

/-- `get_zpb_static_nosplit` (lines 1129-1154).  When any entry has
imaginary part above `tol12`, the source executes
`warnings.warn("...".format(broadening))` — but `warnings` is never
imported and `broadening` is never assigned, so python raises `NameError`
instead of warning; the embedding reproduces that crash as an error. -/
def get_zpb_static_nosplit (st : QptAnalyzer nkpt nband natom) :
    Except String (KN nkpt nband Cplx) := do
  let _ ← st.checkSizeSource
  if ∃ k n, tol12 < (zpbNosplitVal st k n).im then throw nameErrMsg
  else pure (make_average st (zpbNosplitVal st))

/-! ## Self-energy aggregators on the frequency mesh (lines 721-858) and the
mode-resolved static ZPR (lines 1061-1127) -/

/-- The temperature value at entry `t` of the analyzer temperature list. -/
def tempAt (st : QptAnalyzer nkpt nband natom) (t : Fin st.ntemp) : ℚ :=
  st.temperatures.get ⟨t.1, t.2⟩

/-- The frequency-mesh value at entry `l` of `omegase`. -/
def omegaseAt (st : QptAnalyzer nkpt nband natom) (l : Fin st.nomegase) : ℚ :=
  st.omegase.get ⟨l.1, l.2⟩

/-- The Fermi occupation `occ[0, k, n, t]` at the analyzer temperatures
(line 375). -/
def occT (st : QptAnalyzer nkpt nband natom) (t : Fin st.ntemp)
    (k : Fin nkpt) (n : Fin nband) : ℚ :=
  st.fermiF st.mu (tempAt st t) k n

/-- The active ddw tensor of `get_fan_ddw_active` at
`mode=False, temperature=True, omega=True` (lines 385-411): the base mode
contraction times `2*bose+1`, broadcast along the frequency axis, reduced
with flags `(False, True, True)`. -/
def activeDdwCoreTT (st : QptAnalyzer nkpt nband natom) (occ0 : Fin nband → ℚ)
    (ddw_num : KNNO nkpt nband natom) :
    Fin st.ntemp → Fin st.nomegase → Fin nkpt → Fin nband → Cplx :=
  reduce_array
    (fun o (t : Fin st.ntemp) (_l : Fin st.nomegase) k n =>
      (2 * boseAt st o t + 1) •
        ∑ m, ddw_num k n m o * (deltaEddwD st occ0 k n m)⁻¹)
    false true true

/-- The active fan tensor of `get_fan_ddw_active` at
`mode=False, temperature=True, omega=True` (lines 414-477): numerators
`bose + 1 - f(k,n,T)` and `bose + f(k,n,T)` (outer-band occupation), the
real frequency offset from the caller mesh, reduced with flags
`(False, True, True)`.  The `dynamical` flag is `True` (the default used by
`get_td_self_energy`, line 848). -/
def activeFanCoreTT (st : QptAnalyzer nkpt nband natom) (occ0 : Fin nband → ℚ)
    (fan_num : KNNO nkpt nband natom) :
    Fin st.ntemp → Fin st.nomegase → Fin nkpt → Fin nband → Cplx :=
  reduce_array
    (fun o (t : Fin st.ntemp) (l : Fin st.nomegase) k n =>
      ∑ kband,
        fan_num k n kband o *
          ((boseAt st o t + 1 - occT st t k n) •
              (fanDeno1 st occ0 true kband k n (omegaseAt st l) o)⁻¹
            + (boseAt st o t + occT st t k n) •
              (fanDeno2 st occ0 true kband k n (omegaseAt st l) o)⁻¹))
    false true true

/-- `get_fan_ddw_active` at `mode=False, omega=True, temperature=True`,
`dynamical=True` (lines 322-479). -/
def get_fan_ddw_active_TT (st : QptAnalyzer nkpt nband natom) :
    Except String
      ((Fin st.ntemp → Fin st.nomegase → Fin nkpt → Fin nband → Cplx) ×
       (Fin st.ntemp → Fin st.nomegase → Fin nkpt → Fin nband → Cplx)) := do
  let _ ← st.checkSizeSource
  let occ0 ← st.get_occ_nospin
  let fnd ← st.get_fan_ddw_gkk2_active
  pure (activeFanCoreTT st occ0 fnd.1, activeDdwCoreTT st occ0 fnd.2)

/-- `get_td_self_energy` (lines 834-858): Sternheimer plus active
contributions on the temperature and frequency axes,
`sigma = wtq * ((fan_active - ddw_active) + (fan_stern - ddw_stern))`,
averaged and permuted to (kpt, band, frequency, temperature); the complex
value is kept. -/
def get_td_self_energy (st : QptAnalyzer nkpt nband natom) :
    Except String
      (Fin nkpt → Fin nband → Fin st.nomegase → Fin st.ntemp → Cplx) := do
  let s ← st.get_fan_ddw_sternheimer false true true
  let a ← st.get_fan_ddw_active_TT
  pure (fun k n l t =>
    make_average st (fun k2 n2 =>
      st.wtq • ((a.1 t l k2 n2 - a.2 t l k2 n2)
        + (s.1 t l k2 n2 - s.2 t l k2 n2))) k n)

/-- The inline active fan term of `get_zp_self_energy` (lines 775-817):
scalar numerators `1 - occ0[kband]` and `occ0[kband]` (inner-band
occupation, unlike `get_fan_ddw_active`), frequency offset from the mesh,
accumulated over the band loop and summed over modes. -/
def zpSigmaFanAdd (st : QptAnalyzer nkpt nband natom) (occ0 : Fin nband → ℚ)
    (fan_num : KNNO nkpt nband natom) :
    Fin st.nomegase → Fin nkpt → Fin nband → Cplx :=
  fun l k n =>
    ∑ kband, ∑ o,
      fan_num k n kband o *
        ((1 - occ0 kband) • (fanDeno1 st occ0 true kband k n (omegaseAt st l) o)⁻¹
          + occ0 kband • (fanDeno2 st occ0 true kband k n (omegaseAt st l) o)⁻¹)

/-- The ddw term of `get_zp_self_energy` (lines 760-773): `ddw_num` summed
over modes, contracted with the reciprocal broadened `delta_E_ddw`
(frequency-independent, broadcast along the mesh). -/
def zpSigmaDdwAdd (st : QptAnalyzer nkpt nband natom) (occ0 : Fin nband → ℚ)
    (ddw_num : KNNO nkpt nband natom) : KN nkpt nband Cplx :=
  fun k n => ∑ m, (∑ o, ddw_num k n m o) * (deltaEddwD st occ0 k n m)⁻¹

/-- `get_zp_self_energy` (lines 721-832): Sternheimer (frequency-broadcast)
plus active terms, `sigma = (fan - ddw) * wtq`, averaged and permuted to
(kpt, band, frequency); the complex value is kept. -/
def get_zp_self_energy (st : QptAnalyzer nkpt nband natom) :
    Except String (Fin nkpt → Fin nband → Fin st.nomegase → Cplx) := do
  let _ ← st.checkSizeSource
  let s ← st.get_fan_ddw_sternheimer false false true
  let fnd ← st.get_fan_ddw_gkk2_active
  let occ0 ← st.get_occ_nospin
  pure (fun k n l =>
    make_average st (fun k2 n2 =>
      st.wtq • ((s.1 l k2 n2 + zpSigmaFanAdd st occ0 fnd.1 l k2 n2)
        - (s.2 l k2 n2 + zpSigmaDdwAdd st occ0 fnd.2 k2 n2))) k n)

/-- The mode-resolved active fan term of `get_zpr_static_modes`
(lines 1092-1110): `fan_num` contracted with
`delta_E / (delta_E^2 + smearing^2)` over the other band. -/
def zprModesFanActive (st : QptAnalyzer nkpt nband natom)
    (fan_num : KNNO nkpt nband natom) :
    Fin (3 * natom) → Fin nkpt → Fin nband → Cplx :=
  fun o k n =>
    ∑ m, (deltaEreal st k n m * (1 / tdrDeno st k n m)) • fan_num k n m o

/-- The mode-resolved active ddw term of `get_zpr_static_modes`
(lines 1102-1116), analogous with `delta_E_ddw`. -/
def zprModesDdwActive (st : QptAnalyzer nkpt nband natom)
    (ddw_num : KNNO nkpt nband natom) :
    Fin (3 * natom) → Fin nkpt → Fin nband → Cplx :=
  fun o k n =>
    ∑ m, (deltaEddwReal st k n m * (1 / tdrDenoDdw st k n m)) • ddw_num k n m o

/-- `get_zpr_static_modes` (lines 1061-1127): mode-resolved Sternheimer plus
active contributions, `zpr = (fan - ddw) * wtq`, averaged; the complex
value is kept (no real part is taken). -/
def get_zpr_static_modes (st : QptAnalyzer nkpt nband natom) :
    Except String (Fin (3 * natom) → Fin nkpt → Fin nband → Cplx) := do
  let _ ← st.checkSizeSource
  let s ← st.get_fan_ddw_sternheimer true false false
  let fnd ← st.get_fan_ddw_gkk2_active
  pure (fun o =>
    make_average st (fun k n =>
      st.wtq • ((s.1 o k n + zprModesFanActive st fnd.1 o k n)
        - (s.2 o k n + zprModesDdwActive st fnd.2 o k n))))

end QptAnalyzer

end EPC

namespace EPC

variable {nkpt nband natom : ℕ}

/-! ## Claim-side composite quantities and result extractors -/

/-- The static Sternheimer ZPR contribution on its own: Sternheimer fan/ddw
with `mode=temperature=omega=False`, weighted by `wtq`, real part taken,
degenerate-band averaged. -/
def sternZPRstatic (st : QptAnalyzer nkpt nband natom) : KN nkpt nband ℚ :=
  make_average st (fun k n =>
    st.wtq * (QptAnalyzer.sternFanVal st false false false k n
      - QptAnalyzer.sternDdwVal st false false false k n).re)

/-- The static active-space ZPR contribution on its own: active fan/ddw with
`mode=temperature=omega=False, dynamical=False`, weighted by `wtq`, real
part taken, degenerate-band averaged. -/
def activeZPRstatic (st : QptAnalyzer nkpt nband natom) : KN nkpt nband ℚ :=
  make_average st (fun k n =>
    st.wtq * (QptAnalyzer.activeFanCoreFF st false (QptAnalyzer.occ_nospin_val st)
        (QptAnalyzer.fanNumVal st) k n
      - QptAnalyzer.activeDdwCoreFF st (QptAnalyzer.occ_nospin_val st)
        (QptAnalyzer.ddwNumVal st) k n).re)

/-- Extract the error message of a failed computation. -/
def errPick {α : Type _} : Except String α → Option String
  | .error e => some e
  | .ok _ => none

/-- Extract entry (0, 0, 0) of a (kpt, band, temperature)-shaped result. -/
def tdrPick00 (r : Except String (Fin 1 → Fin 1 → Fin 1 → Cplx)) : Cplx :=
  match r with
  | .ok f => f 0 0 0
  | .error _ => 0

/-- Extract entry (0, 0) of a (kpt, band)-shaped result. -/
def knPick00 (r : Except String (KN 1 1 Cplx)) : Cplx :=
  match r with
  | .ok f => f 0 0
  | .error _ => 0

/-! ## Concrete analyzer states for witnesses and counterexamples -/

/-- Occupation row `[1, 1, 0, 0]`. -/
def occRow1100 : Fin 4 → ℚ := fun n => if n.1 < 2 then 1 else 0

/-- Occupation row `[2, 2, 0, 0]`. -/
def occRow2200 : Fin 4 → ℚ := fun n => if n.1 < 2 then 2 else 0

/-- Eigenvalue row `[-1, -1/2, 1/2, 1]` (the spec's Fermi-level example). -/
def eigqRow : Fin 4 → ℚ := fun n =>
  if n.1 = 0 then -1 else if n.1 = 1 then -1/2 else if n.1 = 2 then 1/2 else 1

/-- A concrete gapped four-band state: EIGR2D/FAN/FAN0 files present, GKK
absent, occupations `[1,1,0,0]`, k+q eigenvalues `[-1,-1/2,1/2,1]`,
non-degenerate bare bands, trivial symmetrization, non-Gamma q-point. -/
def stDefault : QptAnalyzer 1 4 1 where
  eigr2d_present := true
  fan_present := true
  fan0_present := true
  gkk_present := false
  gkk0_present := false
  wtq := 1
  smearing := 1/100
  temperatures := [0]
  omegase := []
  mu := none
  isGammaQ := false
  omega := fun _ => ⟨1/10, 0⟩
  displFAN2 := fun _ _ _ _ _ => ⟨1, 0⟩
  displDDW2 := fun _ _ _ _ _ => ⟨1, 0⟩
  boseF := fun _ _ => 0
  eig0EIG := fun _ n => ⟨(n.1 : ℚ), 0⟩
  eigqEIG := fun _ n => ⟨eigqRow n, 0⟩
  fermiF := fun _ _ _ n => if n.1 < 2 then 1 else 0
  symmFanDegen := id
  eigr2dOcc := occRow1100
  fanOcc := occRow1100
  gkkOcc := occRow1100
  eigr2dEIG2D := fun _ _ _ _ _ _ => ⟨1, 0⟩
  eigr2d0EIG2D := fun _ _ _ _ _ _ => 0
  eigi2dEIG2D := fun _ _ _ _ _ _ => 0
  gkkSq := fun _ _ _ _ _ _ _ => 0
  gkk0Sq := fun _ _ _ _ _ _ _ => 0
  fanFAN := fun _ _ _ _ _ _ _ => ⟨1, 0⟩
  fan0FAN := fun _ _ _ _ _ _ _ => ⟨1, 0⟩

/-- `stDefault` with the occupation row `[2, 2, 0, 0]` (spin-doubled). -/
def stOcc2 : QptAnalyzer 1 4 1 := { stDefault with eigr2dOcc := occRow2200 }

/-- `stDefault` with every band unoccupied and a constant k+q eigenvalue
row (for the no-valence-band edge case). -/
def stEmptyVal : QptAnalyzer 1 4 1 :=
  { stDefault with
    eigr2dOcc := fun _ => 0
    fanOcc := fun _ => 0
    gkkOcc := fun _ => 0
    eigqEIG := fun _ _ => ⟨5, 0⟩ }

/-- `stDefault` without the FAN file pair: no active-space data
(`has_active` is false) but sizes still known from EIGR2D. -/
def stNoActive : QptAnalyzer 1 4 1 :=
  { stDefault with fan_present := false, fan0_present := false }

/-- A minimal one-band state whose EIGR2D (and EIGI2D) second-order matrix
elements are purely imaginary, with vanishing active-space coupling data. -/
def smallSt : QptAnalyzer 1 1 1 where
  eigr2d_present := true
  fan_present := true
  fan0_present := true
  gkk_present := false
  gkk0_present := false
  wtq := 1
  smearing := 1/100
  temperatures := [0]
  omegase := []
  mu := none
  isGammaQ := false
  omega := fun _ => ⟨1/10, 0⟩
  displFAN2 := fun _ _ _ _ _ => ⟨1, 0⟩
  displDDW2 := fun _ _ _ _ _ => ⟨1, 0⟩
  boseF := fun _ _ => 0
  eig0EIG := fun _ _ => 0
  eigqEIG := fun _ _ => 0
  fermiF := fun _ _ _ _ => 1
  symmFanDegen := id
  eigr2dOcc := fun _ => 1
  fanOcc := fun _ => 1
  gkkOcc := fun _ => 1
  eigr2dEIG2D := fun _ _ _ _ _ _ => Cplx.I
  eigr2d0EIG2D := fun _ _ _ _ _ _ => 0
  eigi2dEIG2D := fun _ _ _ _ _ _ => Cplx.I
  gkkSq := fun _ _ _ _ _ _ _ => 0
  gkk0Sq := fun _ _ _ _ _ _ _ => 0
  fanFAN := fun _ _ _ _ _ _ _ => 0
  fan0FAN := fun _ _ _ _ _ _ _ => 0

/-- `smallSt` with nonvanishing q=0 squared coupling (`fan0.FAN`), i.e. a
nonzero Debye-Waller numerator; the Fan-side data is unchanged. -/
def smallStB : QptAnalyzer 1 1 1 :=
  { smallSt with fan0FAN := fun _ _ _ _ _ _ _ => ⟨1, 0⟩ }

end EPC

namespace EPC

variable {nkpt nband natom : ℕ}

namespace QptAnalyzer

/-! ## Success lemmas for the fallible components -/

theorem checkSizeSource_error (st : QptAnalyzer nkpt nband natom)
    (h : (st.eigr2d_present || st.fan_present || st.gkk_present) = false) :
    st.checkSizeSource = Except.error sizeMsg := by
  unfold checkSizeSource
  simp [h, throw, throwThe, MonadExceptOf.throw]

theorem get_occ_nospin_error (st : QptAnalyzer nkpt nband natom)
    (h : (st.eigr2d_present || st.fan_present || st.gkk_present) = false) :
    st.get_occ_nospin = Except.error occMsg := by
  unfold get_occ_nospin
  simp only [Bool.or_eq_false_iff] at h
  simp [h.1.1, h.1.2, h.2, throw, throwThe, MonadExceptOf.throw]

theorem gkk2_active_error (st : QptAnalyzer nkpt nband natom)
    (h : st.has_active = false) :
    st.get_fan_ddw_gkk2_active = Except.error activeMsg := by
  unfold get_fan_ddw_gkk2_active
  simp [h, throw, throwThe, MonadExceptOf.throw]

theorem gkk2_active_ok (st : QptAnalyzer nkpt nband natom)
    (h : st.has_active = true) :
    st.get_fan_ddw_gkk2_active = Except.ok (fanNumVal st, ddwNumVal st) := by
  unfold get_fan_ddw_gkk2_active
  simp [h, pure, Except.pure]

theorem sternheimer_ok (st : QptAnalyzer nkpt nband natom) (m t w : Bool)
    (h : st.eigr2d_present || st.fan_present || st.gkk_present) :
    st.get_fan_ddw_sternheimer m t w
      = Except.ok (sternFanVal st m t w, sternDdwVal st m t w) := by
  unfold get_fan_ddw_sternheimer
  rw [checkSizeSource_of_present st h]
  rfl

theorem active_FF_ok (st : QptAnalyzer nkpt nband natom) (dyn : Bool)
    (h : st.has_active = true) :
    st.get_fan_ddw_active_FF dyn
      = Except.ok
          (activeFanCoreFF st dyn (occ_nospin_val st) (fanNumVal st),
           activeDdwCoreFF st (occ_nospin_val st) (ddwNumVal st)) := by
  have hsrc := size_source_of_has_active st h
  unfold get_fan_ddw_active_FF
  rw [checkSizeSource_of_present st hsrc, get_occ_nospin_of_present st hsrc,
    gkk2_active_ok st h]
  rfl

theorem get_fan_ddw_ok (st : QptAnalyzer nkpt nband natom)
    (h : st.has_active = true) :
    st.get_fan_ddw = Except.ok
      (fun k n => activeFanCoreFF st false (occ_nospin_val st) (fanNumVal st) k n
        + sternFanVal st false false false k n,
       fun k n => activeDdwCoreFF st (occ_nospin_val st) (ddwNumVal st) k n
        + sternDdwVal st false false false k n) := by
  have hsrc := size_source_of_has_active st h
  unfold get_fan_ddw
  rw [sternheimer_ok st false false false hsrc, active_FF_ok st false h]
  rfl

end QptAnalyzer

/-! ## C5 : the axis-reduction primitive -/

/-- C5: for every 5-axis tensor and every combination of the three flags,
`reduce_array` sums over exactly the non-flagged leading axes, retains kpt
and band, and keeps the canonical (mode, temperature, frequency, kpt, band)
order of the retained axes; with all flags false it agrees with the
reference summation over the first three axes. -/
theorem reduce_array_spec {nm nt nw nk nb : ℕ}
    (arr : Fin nm → Fin nt → Fin nw → Fin nk → Fin nb → Cplx) :
    (∀ k n, reduce_array arr false false false k n = referenceSum arr k n)
  ∧ (∀ k n, reduce_array arr false false false k n
      = ∑ x : Fin nm × Fin nt × Fin nw, arr x.1 x.2.1 x.2.2 k n)
  ∧ (∀ l k n, reduce_array arr false false true l k n
      = ∑ x : Fin nm × Fin nt, arr x.1 x.2 l k n)
  ∧ (∀ t k n, reduce_array arr false true false t k n
      = ∑ x : Fin nm × Fin nw, arr x.1 t x.2 k n)
  ∧ (∀ t l k n, reduce_array arr false true true t l k n = ∑ o, arr o t l k n)
  ∧ (∀ o k n, reduce_array arr true false false o k n
      = ∑ x : Fin nt × Fin nw, arr o x.1 x.2 k n)
  ∧ (∀ o l k n, reduce_array arr true false true o l k n = ∑ t, arr o t l k n)
  ∧ (∀ o t k n, reduce_array arr true true false o t k n = ∑ l, arr o t l k n)
  ∧ (∀ o t l k n, reduce_array arr true true true o t l k n = arr o t l k n) := by
  refine ⟨?_, ?_, ?_, ?_, fun t l k n => rfl, ?_, fun o l k n => rfl,
    fun o t k n => rfl, fun o t l k n => rfl⟩
  · intro k n
    simp [reduce_array, referenceSum, Fintype.sum_prod_type]
  · intro k n
    simp [reduce_array, Fintype.sum_prod_type]
  · intro l k n
    simp [reduce_array, Fintype.sum_prod_type]
  · intro t k n
    simp [reduce_array, Fintype.sum_prod_type]
  · intro o k n
    simp [reduce_array, Fintype.sum_prod_type]

/-! ## C4 : symmetrization placement in the coupling tensor builder -/

/-- C4: with active-space data present, `get_fan_ddw_gkk2_active` applies
`symmetrize_fan_degen` to the ddw numerator unconditionally and to the fan
numerator exactly when the q-point is Gamma; away from Gamma the fan
numerator is the raw contraction of the squared coupling with
`displ_red_FAN2`. -/
theorem gkk2_active_symmetrization (st : QptAnalyzer nkpt nband natom)
    (h : st.has_active = true) :
    (st.isGammaQ = true →
      st.get_fan_ddw_gkk2_active
        = Except.ok (st.symmFanDegen (QptAnalyzer.rawFanNum st),
            st.symmFanDegen (QptAnalyzer.rawDdwNum st)))
  ∧ (st.isGammaQ = false →
      st.get_fan_ddw_gkk2_active
        = Except.ok (QptAnalyzer.rawFanNum st,
            st.symmFanDegen (QptAnalyzer.rawDdwNum st))) := by
  constructor
  · intro hg
    rw [QptAnalyzer.gkk2_active_ok st h]
    unfold QptAnalyzer.fanNumVal QptAnalyzer.ddwNumVal
    simp [hg]
  · intro hg
    rw [QptAnalyzer.gkk2_active_ok st h]
    unfold QptAnalyzer.fanNumVal QptAnalyzer.ddwNumVal
    simp [hg]

/-- Witness for C4 at the concrete non-Gamma state `stDefault`. -/
theorem gkk2_active_symmetrization_witness :
    stDefault.has_active = true ∧ stDefault.isGammaQ = false ∧
      stDefault.get_fan_ddw_gkk2_active
        = Except.ok (QptAnalyzer.rawFanNum stDefault,
            stDefault.symmFanDegen (QptAnalyzer.rawDdwNum stDefault)) :=
  ⟨by decide, by decide,
    (gkk2_active_symmetrization stDefault (by decide)).2 (by decide)⟩

/-! ## C8 : the spin-agnostic occupation vector -/

/-- C8: `get_occ_nospin` returns the occupation row of the first populated
source (EIGR2D, then FAN, then GKK), halved exactly when some raw entry
equals 2, and raises the configuration error when no source is present. -/
theorem get_occ_nospin_spec (st : QptAnalyzer nkpt nband natom) :
    (st.eigr2d_present = true →
      st.get_occ_nospin = Except.ok (QptAnalyzer.normOcc st.eigr2dOcc))
  ∧ (st.eigr2d_present = false → st.fan_present = true →
      st.get_occ_nospin = Except.ok (QptAnalyzer.normOcc st.fanOcc))
  ∧ (st.eigr2d_present = false → st.fan_present = false → st.gkk_present = true →
      st.get_occ_nospin = Except.ok (QptAnalyzer.normOcc st.gkkOcc))
  ∧ (st.eigr2d_present = false → st.fan_present = false → st.gkk_present = false →
      st.get_occ_nospin = Except.error occMsg)
  ∧ (∀ occ : Fin nband → ℚ, (∃ n, occ n = 2) →
      QptAnalyzer.normOcc occ = fun n => occ n / 2)
  ∧ (∀ occ : Fin nband → ℚ, (¬ ∃ n, occ n = 2) →
      QptAnalyzer.normOcc occ = occ) := by
  refine ⟨?_, ?_, ?_, ?_, ?_, ?_⟩
  · intro h1
    unfold QptAnalyzer.get_occ_nospin
    simp [h1, pure, Except.pure]
  · intro h1 h2
    unfold QptAnalyzer.get_occ_nospin
    simp [h1, h2, pure, Except.pure]
  · intro h1 h2 h3
    unfold QptAnalyzer.get_occ_nospin
    simp [h1, h2, h3, pure, Except.pure]
  · intro h1 h2 h3
    unfold QptAnalyzer.get_occ_nospin
    simp [h1, h2, h3, throw, throwThe, MonadExceptOf.throw]
  · intro occ h
    unfold QptAnalyzer.normOcc
    simp [h]
  · intro occ h
    unfold QptAnalyzer.normOcc
    simp [h]

/-- Witness for C8: on the raw row `[2,2,0,0]` the returned occupation is
`[1,1,0,0]`; the raw row `[1,1,0,0]` is returned unchanged. -/
theorem get_occ_nospin_spec_witness :
    stOcc2.get_occ_nospin = Except.ok (QptAnalyzer.normOcc stOcc2.eigr2dOcc)
  ∧ QptAnalyzer.normOcc stOcc2.eigr2dOcc = occRow1100
  ∧ stDefault.get_occ_nospin = Except.ok (QptAnalyzer.normOcc stDefault.eigr2dOcc)
  ∧ QptAnalyzer.normOcc stDefault.eigr2dOcc = occRow1100 := by
  have h2 : ∃ n : Fin 4, occRow2200 n = 2 := ⟨0, by norm_num [occRow2200]⟩
  have h1 : ¬ ∃ n : Fin 4, occRow1100 n = 2 := by
    rintro ⟨n, hn⟩
    fin_cases n <;> norm_num [occRow1100] at hn
  refine ⟨(get_occ_nospin_spec stOcc2).1 rfl, ?_, (get_occ_nospin_spec stDefault).1 rfl, ?_⟩
  · show QptAnalyzer.normOcc occRow2200 = occRow1100
    rw [QptAnalyzer.normOcc, if_pos h2]
    funext n
    fin_cases n <;> norm_num [occRow2200, occRow1100]
  · show QptAnalyzer.normOcc occRow1100 = occRow1100
    rw [QptAnalyzer.normOcc, if_neg h1]

end EPC

namespace EPC

variable {nkpt nband natom : ℕ}

theorem exceptBind_ok {α β : Type _} (a : α) (f : α → Except String β) :
    (Except.ok a >>= f) = f a := rfl

theorem exceptPure_eq {α : Type _} (a : α) :
    (pure a : Except String α) = Except.ok a := rfl

/-! ## C3 : nonvanishing broadened denominators -/

/-- C3: with `smearing > 0` and every normalized occupation in `{0, 1}`,
every energy denominator of the active-space transition engine —
`delta_E_ddw`, and `deno1`/`deno2` for every other band, every real
frequency offset, every mode, in both the static and dynamical schemes —
has imaginary part exactly `±smearing` and hence is nonzero; and the
static-TDR denominators are bounded below by `smearing² > 0`. -/
theorem broadened_denominators_nonzero (st : QptAnalyzer nkpt nband natom)
    (occ0 : Fin nband → ℚ) (hs : 0 < st.smearing)
    (hocc : st.get_occ_nospin = Except.ok occ0)
    (h01 : ∀ n, occ0 n = 0 ∨ occ0 n = 1) :
    (∀ k n m,
      ((QptAnalyzer.deltaEddwD st occ0 k n m).im = st.smearing ∨
        (QptAnalyzer.deltaEddwD st occ0 k n m).im = -st.smearing)
      ∧ QptAnalyzer.deltaEddwD st occ0 k n m ≠ 0)
  ∧ (∀ (dyn : Bool) (kband : Fin nband) k n (wl : ℚ) o,
      (((QptAnalyzer.fanDeno1 st occ0 dyn kband k n wl o).im = st.smearing ∨
         (QptAnalyzer.fanDeno1 st occ0 dyn kband k n wl o).im = -st.smearing)
        ∧ QptAnalyzer.fanDeno1 st occ0 dyn kband k n wl o ≠ 0)
      ∧ (((QptAnalyzer.fanDeno2 st occ0 dyn kband k n wl o).im = st.smearing ∨
           (QptAnalyzer.fanDeno2 st occ0 dyn kband k n wl o).im = -st.smearing)
          ∧ QptAnalyzer.fanDeno2 st occ0 dyn kband k n wl o ≠ 0))
  ∧ (∀ k n m, 0 < st.smearing ^ 2
      ∧ st.smearing ^ 2 ≤ QptAnalyzer.tdrDeno st k n m
      ∧ st.smearing ^ 2 ≤ QptAnalyzer.tdrDenoDdw st k n m) := by
  have him : ∀ b : Fin nband,
      -((2 * occ0 b - 1) * st.smearing) = st.smearing ∨
      -((2 * occ0 b - 1) * st.smearing) = -st.smearing := by
    intro b
    rcases h01 b with h | h
    · left; rw [h]; ring
    · right; rw [h]; ring
  have hne : ∀ b : Fin nband, -((2 * occ0 b - 1) * st.smearing) ≠ 0 := by
    intro b
    rcases him b with h | h <;> rw [h]
    · exact hs.ne'
    · exact neg_ne_zero.mpr hs.ne'
  refine ⟨?_, ?_, ?_⟩
  · intro k n m
    refine ⟨him m, Cplx.ne_zero_of_im_ne_zero ?_⟩
    exact hne m
  · intro dyn kband k n wl o
    have h1 : (QptAnalyzer.fanDeno1 st occ0 dyn kband k n wl o).im
        = -((2 * occ0 kband - 1) * st.smearing) := by
      simp [QptAnalyzer.fanDeno1, QptAnalyzer.fanDeltaE]
    have h2 : (QptAnalyzer.fanDeno2 st occ0 dyn kband k n wl o).im
        = -((2 * occ0 kband - 1) * st.smearing) := by
      simp [QptAnalyzer.fanDeno2, QptAnalyzer.fanDeltaE]
    refine ⟨⟨?_, Cplx.ne_zero_of_im_ne_zero ?_⟩, ⟨?_, Cplx.ne_zero_of_im_ne_zero ?_⟩⟩
    · rw [h1]; exact him kband
    · rw [h1]; exact hne kband
    · rw [h2]; exact him kband
    · rw [h2]; exact hne kband
  · intro k n m
    refine ⟨pow_pos hs 2, ?_, ?_⟩
    · exact le_add_of_nonneg_left (sq_nonneg _)
    · exact le_add_of_nonneg_left (sq_nonneg _)

/-- Witness for C3 at the concrete state `stDefault` (smearing `1/100`,
normalized occupations `[1,1,0,0]`). -/
theorem broadened_denominators_nonzero_witness :
    (0 < stDefault.smearing
      ∧ stDefault.get_occ_nospin = Except.ok (QptAnalyzer.occ_nospin_val stDefault)
      ∧ (∀ n, QptAnalyzer.occ_nospin_val stDefault n = 0
          ∨ QptAnalyzer.occ_nospin_val stDefault n = 1))
  ∧ QptAnalyzer.deltaEddwD stDefault (QptAnalyzer.occ_nospin_val stDefault) 0 0 0 ≠ 0
  ∧ QptAnalyzer.fanDeno1 stDefault (QptAnalyzer.occ_nospin_val stDefault)
      true 0 0 0 (1/4) 0 ≠ 0 := by
  have hs : 0 < stDefault.smearing := by
    show (0 : ℚ) < 1/100
    norm_num
  have hno : ¬ ∃ n : Fin 4, occRow1100 n = 2 := by
    rintro ⟨n, hn⟩
    fin_cases n <;> norm_num [occRow1100] at hn
  have hval : QptAnalyzer.occ_nospin_val stDefault = occRow1100 := by
    show QptAnalyzer.normOcc occRow1100 = occRow1100
    rw [QptAnalyzer.normOcc, if_neg hno]
  have h01 : ∀ n, QptAnalyzer.occ_nospin_val stDefault n = 0
      ∨ QptAnalyzer.occ_nospin_val stDefault n = 1 := by
    rw [hval]
    intro n
    fin_cases n <;> [right; right; left; left] <;> norm_num [occRow1100]
  have hocc : stDefault.get_occ_nospin
      = Except.ok (QptAnalyzer.occ_nospin_val stDefault) :=
    QptAnalyzer.get_occ_nospin_of_present stDefault rfl
  have h := broadened_denominators_nonzero stDefault
    (QptAnalyzer.occ_nospin_val stDefault) hs hocc h01
  exact ⟨⟨hs, hocc, h01⟩, (h.1 0 0 0).2, ((h.2.1 true 0 0 0 (1/4) 0).1).2⟩

/-! ## C1 : additivity of the static ZPR aggregation -/

/-- C1: with coupling data present and positive smearing, `get_zpr_static`
equals the sum of the Sternheimer-only and active-only static ZPR
contributions, each computed with `mode=temperature=omega=False`
(`dynamical=False`), weighted by `wtq`, real part taken, and
degenerate-band averaged. -/
theorem zpr_static_additive (st : QptAnalyzer nkpt nband natom)
    (hs : 0 < st.smearing) (ha : st.has_active = true) :
    st.get_fan_ddw_sternheimer false false false
      = Except.ok (QptAnalyzer.sternFanVal st false false false,
          QptAnalyzer.sternDdwVal st false false false)
  ∧ st.get_fan_ddw_active_FF false
      = Except.ok
          (QptAnalyzer.activeFanCoreFF st false (QptAnalyzer.occ_nospin_val st)
            (QptAnalyzer.fanNumVal st),
           QptAnalyzer.activeDdwCoreFF st (QptAnalyzer.occ_nospin_val st)
            (QptAnalyzer.ddwNumVal st))
  ∧ st.get_zpr_static
      = Except.ok (fun k n => sternZPRstatic st k n + activeZPRstatic st k n) := by
  have hsrc := QptAnalyzer.size_source_of_has_active st ha
  refine ⟨QptAnalyzer.sternheimer_ok st false false false hsrc,
    QptAnalyzer.active_FF_ok st false ha, ?_⟩
  unfold QptAnalyzer.get_zpr_static
  rw [QptAnalyzer.get_fan_ddw_ok st ha]
  rw [exceptBind_ok, exceptPure_eq]
  refine congrArg Except.ok ?_
  have key :
      (fun k n => st.wtq *
        ((QptAnalyzer.activeFanCoreFF st false (QptAnalyzer.occ_nospin_val st)
              (QptAnalyzer.fanNumVal st) k n
            + QptAnalyzer.sternFanVal st false false false k n)
          - (QptAnalyzer.activeDdwCoreFF st (QptAnalyzer.occ_nospin_val st)
              (QptAnalyzer.ddwNumVal st) k n
            + QptAnalyzer.sternDdwVal st false false false k n)).re)
      = fun (k : Fin nkpt) (n : Fin nband) =>
          (fun k n => st.wtq * (QptAnalyzer.sternFanVal st false false false k n
            - QptAnalyzer.sternDdwVal st false false false k n).re) k n
          + (fun k n => st.wtq *
              (QptAnalyzer.activeFanCoreFF st false (QptAnalyzer.occ_nospin_val st)
                  (QptAnalyzer.fanNumVal st) k n
                - QptAnalyzer.activeDdwCoreFF st (QptAnalyzer.occ_nospin_val st)
                  (QptAnalyzer.ddwNumVal st) k n).re) k n := by
    funext k n
    simp only [Cplx.sub_re, Cplx.add_re]
    ring
  rw [key, make_average_add]
  rfl

/-- Witness for C1 at the concrete state `stDefault`. -/
theorem zpr_static_additive_witness :
    (0 < stDefault.smearing ∧ stDefault.has_active = true)
  ∧ stDefault.get_zpr_static
      = Except.ok (fun k n =>
          sternZPRstatic stDefault k n + activeZPRstatic stDefault k n) := by
  have hs : 0 < stDefault.smearing := by
    show (0 : ℚ) < 1/100
    norm_num
  exact ⟨⟨hs, rfl⟩, (zpr_static_additive stDefault hs rfl).2.2⟩

end EPC

namespace EPC

variable {nkpt nband natom : ℕ}

/-! ## Loop lemmas for the Fermi-level scan -/

theorem maxValGo_stop (occ : Fin nband → ℚ) (eig : Fin nband → Cplx)
    (j : ℕ) (last : Cplx) (h : ∀ hj : j < nband, occ ⟨j, hj⟩ < 1/2) :
    QptAnalyzer.maxValGo occ eig j last = last := by
  rw [QptAnalyzer.maxValGo]
  split
  · next hj => rw [if_pos (h hj)]
  · rfl

theorem maxValGo_run (occ : Fin nband → ℚ) (eig : Fin nband → Cplx)
    (istar : Fin nband)
    (hpre : ∀ m : Fin nband, m ≤ istar → 1/2 ≤ occ m)
    (hpost : ∀ h : istar.1 + 1 < nband, occ ⟨istar.1 + 1, h⟩ < 1/2) :
    ∀ i, i ≤ istar.1 → ∀ last, QptAnalyzer.maxValGo occ eig i last = eig istar := by
  have main : ∀ d i, istar.1 - i = d → i ≤ istar.1 → ∀ last,
      QptAnalyzer.maxValGo occ eig i last = eig istar := by
    intro d
    induction d with
    | zero =>
      intro i hd hi last
      have hie : i = istar.1 := le_antisymm hi (by omega)
      subst hie
      have hnb : istar.1 < nband := istar.2
      have hfin : (⟨istar.1, hnb⟩ : Fin nband) = istar := Fin.ext rfl
      rw [QptAnalyzer.maxValGo, dif_pos hnb,
        if_neg (not_lt.mpr (hpre ⟨istar.1, hnb⟩ (le_of_eq hfin)))]
      rw [hfin]
      exact maxValGo_stop occ eig (istar.1 + 1) (eig istar) hpost
    | succ d ih =>
      intro i hd hi last
      have hi' : i < istar.1 := by omega
      have hnb : i < nband := lt_trans hi' istar.2
      have hle : (⟨i, hnb⟩ : Fin nband) ≤ istar := by
        exact Fin.mk_le_of_le_val (le_of_lt hi')
      rw [QptAnalyzer.maxValGo, dif_pos hnb, if_neg (not_lt.mpr (hpre ⟨i, hnb⟩ hle))]
      exact ih (i + 1) (by omega) (by omega) (eig ⟨i, hnb⟩)
  intro i hi last
  exact main (istar.1 - i) i rfl hi last

theorem minCondGo_run (occ : Fin nband → ℚ) (eig : Fin nband → Cplx)
    (jstar : Fin nband) (hj : occ jstar ≤ 1/2)
    (hpre : ∀ m : Fin nband, m.1 < jstar.1 → 1/2 < occ m) :
    ∀ i (hi : i < nband), i ≤ jstar.1 →
      QptAnalyzer.minCondGo occ eig i hi = eig jstar := by
  have main : ∀ d i (hi : i < nband), jstar.1 - i = d → i ≤ jstar.1 →
      QptAnalyzer.minCondGo occ eig i hi = eig jstar := by
    intro d
    induction d with
    | zero =>
      intro i hi hd hile
      have hie : i = jstar.1 := le_antisymm hile (by omega)
      subst hie
      have hfin : (⟨jstar.1, hi⟩ : Fin nband) = jstar := Fin.ext rfl
      rw [QptAnalyzer.minCondGo, if_pos (by rw [hfin]; exact hj), hfin]
    | succ d ih =>
      intro i hi hd hile
      have hi' : i < jstar.1 := by omega
      have hs1 : i + 1 < nband := lt_of_le_of_lt hi' jstar.2
      rw [QptAnalyzer.minCondGo, if_neg (not_le.mpr (hpre ⟨i, hi⟩ hi')), dif_pos hs1]
      exact ih (i + 1) hs1 (by omega) (by omega)
  intro i hi hile
  exact main (jstar.1 - i) i hi rfl hile

theorem half_add_self (z : Cplx) : (z + z) / Cplx.ofRat 2 = z := by
  have h2 : (Cplx.ofRat 2)⁻¹ = Cplx.ofRat (1/2) := by
    apply Cplx.ext' <;> simp [Cplx.ofRat] <;> norm_num
  show (z + z) * (Cplx.ofRat 2)⁻¹ = z
  rw [h2]
  apply Cplx.ext' <;> simp [Cplx.ofRat] <;> ring

/-! ## C9 : the Fermi-level midpoint -/

/-- C9: for a gapped, band-ordered system (occupations non-increasing in
the band index, some band at least half-occupied, some band at most
half-occupied), `find_fermi_level` returns the midpoint of the k+q
eigenvalue of the highest band with occupation `≥ 1/2` (valence-band
maximum) and of the lowest band with occupation `≤ 1/2` (conduction-band
minimum). -/
theorem find_fermi_level_midpoint (st : QptAnalyzer nkpt nband natom)
    (occ0 : Fin nband → ℚ)
    (hocc : st.get_occ_nospin = Except.ok occ0)
    (hk : 0 < nkpt)
    (hmono : ∀ a b : Fin nband, a ≤ b → occ0 b ≤ occ0 a)
    (istar jstar : Fin nband)
    (hv : 1/2 ≤ occ0 istar) (hv2 : ∀ m : Fin nband, istar.1 < m.1 → occ0 m < 1/2)
    (hc : occ0 jstar ≤ 1/2) (hc2 : ∀ m : Fin nband, m.1 < jstar.1 → 1/2 < occ0 m) :
    st.find_fermi_level
      = Except.ok ((st.eigqEIG ⟨0, hk⟩ istar + st.eigqEIG ⟨0, hk⟩ jstar)
          / Cplx.ofRat 2) := by
  have hb : 0 < nband := istar.pos
  have hmax : st.get_max_val = Except.ok (st.eigqEIG ⟨0, hk⟩ istar) := by
    unfold QptAnalyzer.get_max_val
    rw [hocc, exceptBind_ok, dif_pos hk, dif_pos hb]
    rw [maxValGo_run occ0 (fun n => st.eigqEIG ⟨0, hk⟩ n) istar
      (fun m hm => le_trans hv (hmono m istar hm))
      (fun h => hv2 ⟨istar.1 + 1, h⟩ (Nat.lt_succ_self _))
      0 (Nat.zero_le _) _]
    rfl
  have hmin : st.get_min_cond = Except.ok (st.eigqEIG ⟨0, hk⟩ jstar) := by
    unfold QptAnalyzer.get_min_cond
    rw [hocc, exceptBind_ok, dif_pos hk, dif_pos hb]
    rw [minCondGo_run occ0 (fun n => st.eigqEIG ⟨0, hk⟩ n) jstar hc hc2
      0 hb (Nat.zero_le _)]
    rfl
  unfold QptAnalyzer.find_fermi_level
  rw [hmax, exceptBind_ok, hmin, exceptBind_ok]
  rfl

/-- Witness for C9 at `stDefault`: eigenvalues `[-1,-1/2,1/2,1]` with
occupations `[1,1,0,0]` give Fermi level `0`. -/
theorem find_fermi_level_midpoint_witness :
    stDefault.find_fermi_level
      = Except.ok ((stDefault.eigqEIG ⟨0, by norm_num⟩ ⟨1, by norm_num⟩
          + stDefault.eigqEIG ⟨0, by norm_num⟩ ⟨2, by norm_num⟩) / Cplx.ofRat 2)
  ∧ (stDefault.eigqEIG ⟨0, by norm_num⟩ ⟨1, by norm_num⟩
      + stDefault.eigqEIG ⟨0, by norm_num⟩ ⟨2, by norm_num⟩) / Cplx.ofRat 2 = 0 := by
  have hno : ¬ ∃ n : Fin 4, occRow1100 n = 2 := by
    rintro ⟨n, hn⟩
    fin_cases n <;> norm_num [occRow1100] at hn
  have hval : QptAnalyzer.occ_nospin_val stDefault = occRow1100 := by
    show QptAnalyzer.normOcc occRow1100 = occRow1100
    rw [QptAnalyzer.normOcc, if_neg hno]
  have hocc : stDefault.get_occ_nospin = Except.ok occRow1100 := by
    rw [QptAnalyzer.get_occ_nospin_of_present stDefault rfl, hval]
  constructor
  · refine find_fermi_level_midpoint stDefault occRow1100 hocc (by norm_num)
      ?_ ⟨1, by norm_num⟩ ⟨2, by norm_num⟩ ?_ ?_ ?_ ?_
    · intro a b hab
      have hab' : a.1 ≤ b.1 := hab
      simp only [occRow1100]
      by_cases hb2 : b.1 < 2
      · rw [if_pos hb2, if_pos (lt_of_le_of_lt hab' hb2)]
      · rw [if_neg hb2]
        split <;> norm_num
    · norm_num [occRow1100]
    · intro m hm
      have hm' : 1 < m.1 := hm
      simp only [occRow1100]
      rw [if_neg (by omega)]
      norm_num
    · norm_num [occRow1100]
    · intro m hm
      have hm' : m.1 < 2 := hm
      simp only [occRow1100]
      rw [if_pos (by omega)]
      norm_num
  · have he : stDefault.eigqEIG ⟨0, by norm_num⟩ ⟨1, by norm_num⟩
        + stDefault.eigqEIG ⟨0, by norm_num⟩ ⟨2, by norm_num⟩ = 0 := by
      show (⟨eigqRow ⟨1, by norm_num⟩, 0⟩ + ⟨eigqRow ⟨2, by norm_num⟩, 0⟩ : Cplx) = 0
      apply Cplx.ext' <;> simp [eigqRow] <;> norm_num
    rw [he]
    show (0 : Cplx) * (Cplx.ofRat 2)⁻¹ = 0
    apply Cplx.ext' <;> simp

/-! ## C10 : the empty-valence edge case -/

/-- C10: when every normalized occupation is below `1/2`, both scans stop at
band 0 and `find_fermi_level` returns exactly the first k+q eigenvalue. -/
theorem find_fermi_level_empty_valence (st : QptAnalyzer nkpt nband natom)
    (occ0 : Fin nband → ℚ)
    (hocc : st.get_occ_nospin = Except.ok occ0)
    (hk : 0 < nkpt) (hb : 0 < nband)
    (hall : ∀ n, occ0 n < 1/2) :
    st.find_fermi_level = Except.ok (st.eigqEIG ⟨0, hk⟩ ⟨0, hb⟩) := by
  have hmax : st.get_max_val = Except.ok (st.eigqEIG ⟨0, hk⟩ ⟨0, hb⟩) := by
    unfold QptAnalyzer.get_max_val
    rw [hocc, exceptBind_ok, dif_pos hk, dif_pos hb]
    rw [maxValGo_stop occ0 (fun n => st.eigqEIG ⟨0, hk⟩ n) 0 _ (fun _ => hall _)]
    rfl
  have hmin : st.get_min_cond = Except.ok (st.eigqEIG ⟨0, hk⟩ ⟨0, hb⟩) := by
    unfold QptAnalyzer.get_min_cond
    rw [hocc, exceptBind_ok, dif_pos hk, dif_pos hb]
    rw [QptAnalyzer.minCondGo, if_pos (le_of_lt (hall _))]
    rfl
  unfold QptAnalyzer.find_fermi_level
  rw [hmax, exceptBind_ok, hmin, exceptBind_ok, exceptPure_eq, half_add_self]

/-- Witness for C10 at `stEmptyVal` (all occupations zero, constant k+q
eigenvalue row). -/
theorem find_fermi_level_empty_valence_witness :
    stEmptyVal.find_fermi_level
      = Except.ok (stEmptyVal.eigqEIG ⟨0, by norm_num⟩ ⟨0, by norm_num⟩) := by
  have hno : ¬ ∃ n : Fin 4, (fun _ : Fin 4 => (0 : ℚ)) n = 2 := by
    rintro ⟨n, hn⟩
    norm_num at hn
  have hocc : stEmptyVal.get_occ_nospin = Except.ok (fun _ : Fin 4 => (0 : ℚ)) := by
    rw [QptAnalyzer.get_occ_nospin_of_present stEmptyVal rfl]
    show Except.ok (QptAnalyzer.normOcc (fun _ : Fin 4 => (0 : ℚ))) = _
    rw [QptAnalyzer.normOcc, if_neg hno]
  exact find_fermi_level_empty_valence stEmptyVal _ hocc (by norm_num) (by norm_num)
    (fun n => by norm_num)

end EPC

namespace EPC

variable {nkpt nband natom : ℕ}

namespace QptAnalyzer

/-! ## Error-propagation lemmas -/

theorem sternheimer_error (st : QptAnalyzer nkpt nband natom) (m t w : Bool)
    (h : (st.eigr2d_present || st.fan_present || st.gkk_present) = false) :
    st.get_fan_ddw_sternheimer m t w = Except.error sizeMsg := by
  unfold get_fan_ddw_sternheimer
  rw [checkSizeSource_error st h]
  rfl

theorem active_FF_error (st : QptAnalyzer nkpt nband natom) (dyn : Bool)
    (hsrc : st.eigr2d_present || st.fan_present || st.gkk_present)
    (h : st.has_active = false) :
    st.get_fan_ddw_active_FF dyn = Except.error activeMsg := by
  unfold get_fan_ddw_active_FF
  rw [checkSizeSource_of_present st hsrc, exceptBind_ok,
    get_occ_nospin_of_present st hsrc, exceptBind_ok, gkk2_active_error st h]
  rfl

theorem active_TT_error (st : QptAnalyzer nkpt nband natom)
    (hsrc : st.eigr2d_present || st.fan_present || st.gkk_present)
    (h : st.has_active = false) :
    st.get_fan_ddw_active_TT = Except.error activeMsg := by
  unfold get_fan_ddw_active_TT
  rw [checkSizeSource_of_present st hsrc, exceptBind_ok,
    get_occ_nospin_of_present st hsrc, exceptBind_ok, gkk2_active_error st h]
  rfl

theorem get_fan_ddw_error_active (st : QptAnalyzer nkpt nband natom)
    (hsrc : st.eigr2d_present || st.fan_present || st.gkk_present)
    (h : st.has_active = false) :
    st.get_fan_ddw = Except.error activeMsg := by
  unfold get_fan_ddw
  rw [sternheimer_ok st false false false hsrc, exceptBind_ok,
    active_FF_error st false hsrc h]
  rfl

theorem get_fan_ddw_error_size (st : QptAnalyzer nkpt nband natom)
    (h : (st.eigr2d_present || st.fan_present || st.gkk_present) = false) :
    st.get_fan_ddw = Except.error sizeMsg := by
  unfold get_fan_ddw
  rw [sternheimer_error st false false false h]
  rfl

theorem zpb_static_ok (st : QptAnalyzer nkpt nband natom)
    (h : st.has_active = true) :
    st.get_zpb_static = Except.ok (make_average st
      (fun k n => st.wtq • zpbStaticFanAdd st (occ_nospin_val st) (fanNumVal st) k n)) := by
  have hsrc := size_source_of_has_active st h
  unfold get_zpb_static
  rw [checkSizeSource_of_present st hsrc, exceptBind_ok,
    get_occ_nospin_of_present st hsrc, exceptBind_ok, gkk2_active_ok st h]
  rfl

theorem zpb_dynamical_ok (st : QptAnalyzer nkpt nband natom)
    (h : st.has_active = true) :
    st.get_zpb_dynamical = Except.ok (make_average st
      (fun k n => st.wtq • zpbDynFanAdd st (occ_nospin_val st) (fanNumVal st) k n)) := by
  have hsrc := size_source_of_has_active st h
  unfold get_zpb_dynamical
  rw [checkSizeSource_of_present st hsrc, exceptBind_ok,
    get_occ_nospin_of_present st hsrc, exceptBind_ok, gkk2_active_ok st h]
  rfl

theorem tdr_static_ok (st : QptAnalyzer nkpt nband natom)
    (h : st.has_active = true) :
    st.get_tdr_static = Except.ok (fun k n t =>
      make_average st (fun k2 n2 =>
        st.wtq • ((sternFanVal st false true false t k2 n2
            + tdrStaticFanAdd st (fanNumVal st) t k2 n2)
          - (sternDdwVal st false true false t k2 n2
            + tdrStaticDdwAdd st (ddwNumVal st) t k2 n2))) k n) := by
  have hsrc := size_source_of_has_active st h
  unfold get_tdr_static
  rw [checkSizeSource_of_present st hsrc, exceptBind_ok,
    sternheimer_ok st false true false hsrc, exceptBind_ok, gkk2_active_ok st h]
  rfl

theorem tdr_dynamical_ok (st : QptAnalyzer nkpt nband natom)
    (h : st.has_active = true) :
    st.get_tdr_dynamical = Except.ok (fun k n t =>
      make_average st (fun k2 n2 =>
        st.wtq • ((sternFanVal st false true false t k2 n2
            + tdrDynFanAdd st (occ_nospin_val st) (fanNumVal st) t k2 n2)
          - (sternDdwVal st false true false t k2 n2
            + tdrDynDdwAdd st (occ_nospin_val st) (ddwNumVal st) t k2 n2))) k n) := by
  have hsrc := size_source_of_has_active st h
  unfold get_tdr_dynamical
  rw [checkSizeSource_of_present st hsrc, exceptBind_ok,
    sternheimer_ok st false true false hsrc, exceptBind_ok, gkk2_active_ok st h,
    exceptBind_ok, get_occ_nospin_of_present st hsrc]
  rfl

theorem zpr_static_ok (st : QptAnalyzer nkpt nband natom)
    (h : st.has_active = true) :
    st.get_zpr_static = Except.ok (make_average st (fun k n =>
      st.wtq * ((activeFanCoreFF st false (occ_nospin_val st) (fanNumVal st) k n
          + sternFanVal st false false false k n)
        - (activeDdwCoreFF st (occ_nospin_val st) (ddwNumVal st) k n
          + sternDdwVal st false false false k n)).re)) := by
  unfold get_zpr_static
  rw [get_fan_ddw_ok st h]
  rfl

theorem zpr_dynamical_ok (st : QptAnalyzer nkpt nband natom)
    (he : st.eigr2d_present = true) (h : st.has_active = true)
    (hk : 0 < nkpt) :
    st.get_zpr_dynamical = Except.ok (make_average st (fun k n =>
      st.wtq • ((sternFanVal st false false false k n
          + zprDynFanActive st (fun m => st.fermiF st.mu 0 ⟨0, hk⟩ m)
              (fanNumVal st) k n)
        - (sternDdwVal st false false false k n
          + activeDdwCoreFF st (occ_nospin_val st) (ddwNumVal st) k n)))) := by
  have hsrc : st.eigr2d_present || st.fan_present || st.gkk_present := by
    simp [he]
  unfold get_zpr_dynamical
  rw [if_pos he, sternheimer_ok st false false false hsrc, exceptBind_ok,
    gkk2_active_ok st h, exceptBind_ok, dif_pos hk, active_FF_ok st true h]
  rfl

theorem active_TT_ok (st : QptAnalyzer nkpt nband natom)
    (h : st.has_active = true) :
    st.get_fan_ddw_active_TT
      = Except.ok
          (activeFanCoreTT st (occ_nospin_val st) (fanNumVal st),
           activeDdwCoreTT st (occ_nospin_val st) (ddwNumVal st)) := by
  have hsrc := size_source_of_has_active st h
  unfold get_fan_ddw_active_TT
  rw [checkSizeSource_of_present st hsrc, get_occ_nospin_of_present st hsrc,
    gkk2_active_ok st h]
  rfl

theorem td_self_energy_ok (st : QptAnalyzer nkpt nband natom)
    (h : st.has_active = true) :
    st.get_td_self_energy = Except.ok (fun k n l t =>
      make_average st (fun k2 n2 =>
        st.wtq • ((activeFanCoreTT st (occ_nospin_val st) (fanNumVal st) t l k2 n2
            - activeDdwCoreTT st (occ_nospin_val st) (ddwNumVal st) t l k2 n2)
          + (sternFanVal st false true true t l k2 n2
            - sternDdwVal st false true true t l k2 n2))) k n) := by
  have hsrc := size_source_of_has_active st h
  unfold get_td_self_energy
  rw [sternheimer_ok st false true true hsrc, exceptBind_ok, active_TT_ok st h]
  rfl

theorem zp_self_energy_ok (st : QptAnalyzer nkpt nband natom)
    (h : st.has_active = true) :
    st.get_zp_self_energy = Except.ok (fun k n l =>
      make_average st (fun k2 n2 =>
        st.wtq • ((sternFanVal st false false true l k2 n2
            + zpSigmaFanAdd st (occ_nospin_val st) (fanNumVal st) l k2 n2)
          - (sternDdwVal st false false true l k2 n2
            + zpSigmaDdwAdd st (occ_nospin_val st) (ddwNumVal st) k2 n2))) k n) := by
  have hsrc := size_source_of_has_active st h
  unfold get_zp_self_energy
  rw [checkSizeSource_of_present st hsrc, exceptBind_ok,
    sternheimer_ok st false false true hsrc, exceptBind_ok, gkk2_active_ok st h,
    exceptBind_ok, get_occ_nospin_of_present st hsrc]
  rfl

theorem zpr_static_modes_ok (st : QptAnalyzer nkpt nband natom)
    (h : st.has_active = true) :
    st.get_zpr_static_modes = Except.ok (fun o =>
      make_average st (fun k n =>
        st.wtq • ((sternFanVal st true false false o k n
            + zprModesFanActive st (fanNumVal st) o k n)
          - (sternDdwVal st true false false o k n
            + zprModesDdwActive st (ddwNumVal st) o k n)))) := by
  have hsrc := size_source_of_has_active st h
  unfold get_zpr_static_modes
  rw [checkSizeSource_of_present st hsrc, exceptBind_ok,
    sternheimer_ok st true false false hsrc, exceptBind_ok, gkk2_active_ok st h]
  rfl

end QptAnalyzer

/-! ## C6 : configuration error for missing active-space data -/

/-- C6: `get_fan_ddw_gkk2_active` raises the configuration error exactly
when neither the FAN pair nor the GKK pair is available, and every
aggregator that calls it (static/dynamical ZPR and ZPB, static/dynamical
TDR, both self-energies, and the mode-resolved static ZPR) fails with a
configuration error in that case and never raises that error when a
complete pair is available. -/
theorem active_data_config_error (st : QptAnalyzer nkpt nband natom) :
    (st.has_active = false → st.get_fan_ddw_gkk2_active = Except.error activeMsg)
  ∧ (st.has_active = true →
      st.get_fan_ddw_gkk2_active
        = Except.ok (QptAnalyzer.fanNumVal st, QptAnalyzer.ddwNumVal st))
  ∧ (st.has_active = false →
      (st.get_zpr_static).isOk = false
      ∧ (st.get_zpr_dynamical).isOk = false
      ∧ (st.get_zpb_static).isOk = false
      ∧ (st.get_zpb_dynamical).isOk = false
      ∧ (st.get_tdr_static).isOk = false
      ∧ (st.get_tdr_dynamical).isOk = false
      ∧ (st.get_zp_self_energy).isOk = false
      ∧ (st.get_td_self_energy).isOk = false
      ∧ (st.get_zpr_static_modes).isOk = false)
  ∧ (st.has_active = true →
      st.get_zpr_static ≠ Except.error activeMsg
      ∧ st.get_zpr_dynamical ≠ Except.error activeMsg
      ∧ st.get_zpb_static ≠ Except.error activeMsg
      ∧ st.get_zpb_dynamical ≠ Except.error activeMsg
      ∧ st.get_tdr_static ≠ Except.error activeMsg
      ∧ st.get_tdr_dynamical ≠ Except.error activeMsg
      ∧ st.get_zp_self_energy ≠ Except.error activeMsg
      ∧ st.get_td_self_energy ≠ Except.error activeMsg
      ∧ st.get_zpr_static_modes ≠ Except.error activeMsg) := by
  refine ⟨QptAnalyzer.gkk2_active_error st, QptAnalyzer.gkk2_active_ok st, ?_, ?_⟩
  · intro h
    by_cases hsrc : (st.eigr2d_present || st.fan_present || st.gkk_present) = true
    · refine ⟨?_, ?_, ?_, ?_, ?_, ?_, ?_, ?_, ?_⟩
      · unfold QptAnalyzer.get_zpr_static
        rw [QptAnalyzer.get_fan_ddw_error_active st hsrc h]
        rfl
      · unfold QptAnalyzer.get_zpr_dynamical
        cases he : st.eigr2d_present with
        | false => simp [he, throw, throwThe, MonadExceptOf.throw, Except.isOk, Except.toBool]
        | true =>
          have hsrc' : st.eigr2d_present || st.fan_present || st.gkk_present := by
            simp [he]
          rw [if_pos rfl, QptAnalyzer.sternheimer_ok st false false false hsrc',
            exceptBind_ok, QptAnalyzer.gkk2_active_error st h]
          rfl
      · unfold QptAnalyzer.get_zpb_static
        rw [QptAnalyzer.checkSizeSource_of_present st hsrc, exceptBind_ok,
          QptAnalyzer.get_occ_nospin_of_present st hsrc, exceptBind_ok,
          QptAnalyzer.gkk2_active_error st h]
        rfl
      · unfold QptAnalyzer.get_zpb_dynamical
        rw [QptAnalyzer.checkSizeSource_of_present st hsrc, exceptBind_ok,
          QptAnalyzer.get_occ_nospin_of_present st hsrc, exceptBind_ok,
          QptAnalyzer.gkk2_active_error st h]
        rfl
      · unfold QptAnalyzer.get_tdr_static
        rw [QptAnalyzer.checkSizeSource_of_present st hsrc, exceptBind_ok,
          QptAnalyzer.sternheimer_ok st false true false hsrc, exceptBind_ok,
          QptAnalyzer.gkk2_active_error st h]
        rfl
      · unfold QptAnalyzer.get_tdr_dynamical
        rw [QptAnalyzer.checkSizeSource_of_present st hsrc, exceptBind_ok,
          QptAnalyzer.sternheimer_ok st false true false hsrc, exceptBind_ok,
          QptAnalyzer.gkk2_active_error st h]
        rfl
      · unfold QptAnalyzer.get_zp_self_energy
        rw [QptAnalyzer.checkSizeSource_of_present st hsrc, exceptBind_ok,
          QptAnalyzer.sternheimer_ok st false false true hsrc, exceptBind_ok,
          QptAnalyzer.gkk2_active_error st h]
        rfl
      · unfold QptAnalyzer.get_td_self_energy
        rw [QptAnalyzer.sternheimer_ok st false true true hsrc, exceptBind_ok,
          QptAnalyzer.active_TT_error st hsrc h]
        rfl
      · unfold QptAnalyzer.get_zpr_static_modes
        rw [QptAnalyzer.checkSizeSource_of_present st hsrc, exceptBind_ok,
          QptAnalyzer.sternheimer_ok st true false false hsrc, exceptBind_ok,
          QptAnalyzer.gkk2_active_error st h]
        rfl
    · have hsrc' : (st.eigr2d_present || st.fan_present || st.gkk_present) = false :=
        Bool.not_eq_true _ ▸ (by simpa using hsrc)
      have he : st.eigr2d_present = false := by
        revert hsrc'
        cases st.eigr2d_present <;> simp
      refine ⟨?_, ?_, ?_, ?_, ?_, ?_, ?_, ?_, ?_⟩
      · unfold QptAnalyzer.get_zpr_static
        rw [QptAnalyzer.get_fan_ddw_error_size st hsrc']
        rfl
      · unfold QptAnalyzer.get_zpr_dynamical
        simp [he, throw, throwThe, MonadExceptOf.throw, Except.isOk, Except.toBool]
      · unfold QptAnalyzer.get_zpb_static
        rw [QptAnalyzer.checkSizeSource_error st hsrc']
        rfl
      · unfold QptAnalyzer.get_zpb_dynamical
        rw [QptAnalyzer.checkSizeSource_error st hsrc']
        rfl
      · unfold QptAnalyzer.get_tdr_static
        rw [QptAnalyzer.checkSizeSource_error st hsrc']
        rfl
      · unfold QptAnalyzer.get_tdr_dynamical
        rw [QptAnalyzer.checkSizeSource_error st hsrc']
        rfl
      · unfold QptAnalyzer.get_zp_self_energy
        rw [QptAnalyzer.checkSizeSource_error st hsrc']
        rfl
      · unfold QptAnalyzer.get_td_self_energy
        rw [QptAnalyzer.sternheimer_error st false true true hsrc']
        rfl
      · unfold QptAnalyzer.get_zpr_static_modes
        rw [QptAnalyzer.checkSizeSource_error st hsrc']
        rfl
  · intro h
    refine ⟨?_, ?_, ?_, ?_, ?_, ?_, ?_, ?_, ?_⟩
    · rw [QptAnalyzer.zpr_static_ok st h]
      simp
    · cases he : st.eigr2d_present with
      | false =>
        unfold QptAnalyzer.get_zpr_dynamical
        simp only [he, Bool.false_eq_true, if_false]
        intro hcontra
        have : attrMsg = activeMsg := Except.error.inj hcontra
        exact absurd this (by decide)
      | true =>
        by_cases hk : 0 < nkpt
        · rw [QptAnalyzer.zpr_dynamical_ok st he h hk]
          simp
        · unfold QptAnalyzer.get_zpr_dynamical
          have hsrc' : st.eigr2d_present || st.fan_present || st.gkk_present := by
            simp [he]
          rw [if_pos he, QptAnalyzer.sternheimer_ok st false false false hsrc',
            exceptBind_ok, QptAnalyzer.gkk2_active_ok st h, exceptBind_ok,
            dif_neg hk]
          intro hcontra
          have : idxMsg = activeMsg := Except.error.inj hcontra
          exact absurd this (by decide)
    · rw [QptAnalyzer.zpb_static_ok st h]
      simp
    · rw [QptAnalyzer.zpb_dynamical_ok st h]
      simp
    · rw [QptAnalyzer.tdr_static_ok st h]
      simp
    · rw [QptAnalyzer.tdr_dynamical_ok st h]
      simp
    · rw [QptAnalyzer.zp_self_energy_ok st h]
      simp
    · rw [QptAnalyzer.td_self_energy_ok st h]
      simp
    · rw [QptAnalyzer.zpr_static_modes_ok st h]
      simp

/-- Witness for C6: `stNoActive` (no FAN/GKK pair) raises the configuration
error, `stDefault` (FAN pair present) does not. -/
theorem active_data_config_error_witness :
    stNoActive.has_active = false
  ∧ stNoActive.get_fan_ddw_gkk2_active = Except.error activeMsg
  ∧ (stNoActive.get_zpr_static).isOk = false
  ∧ stDefault.has_active = true
  ∧ stDefault.get_fan_ddw_gkk2_active
      = Except.ok (QptAnalyzer.fanNumVal stDefault, QptAnalyzer.ddwNumVal stDefault)
  ∧ stDefault.get_zpb_static ≠ Except.error activeMsg :=
  ⟨rfl, (active_data_config_error stNoActive).1 rfl,
    ((active_data_config_error stNoActive).2.2.1 rfl).1, rfl,
    (active_data_config_error stDefault).2.1 rfl,
    ((active_data_config_error stDefault).2.2.2 rfl).2.2.1⟩

end EPC

namespace EPC

variable {nkpt nband natom : ℕ}

/-! ## Evaluation lemmas on the concrete one-band states -/

theorem make_average_oneband {nkpt natom : ℕ} (st : QptAnalyzer nkpt 1 natom)
    {α : Type _} [AddCommMonoid α] [Module ℚ α] (A : KN nkpt 1 α)
    (k : Fin nkpt) (n : Fin 1) : make_average st A k n = A k n := by
  have hg : degenGroup st k n = {n} := by
    apply Finset.eq_singleton_iff_unique_mem.mpr
    exact ⟨Finset.mem_filter.mpr ⟨Finset.mem_univ n, rfl⟩,
      fun m _ => Subsingleton.elim m n⟩
  rw [make_average, hg, Finset.sum_singleton, Finset.card_singleton,
    Nat.cast_one, inv_one, one_smul]

theorem smallSt_rawFanNum : QptAnalyzer.rawFanNum smallSt = fun _ _ _ _ => 0 := by
  funext k n m o
  unfold QptAnalyzer.rawFanNum
  have hz : ∀ (i : Fin 1) (a : Fin 3) (j : Fin 1) (b : Fin 3),
      QptAnalyzer.gkk2Tensor smallSt k n i a j b m * smallSt.displFAN2 o a b i j = 0 := by
    intro i a j b
    show (0 : Cplx) * _ = 0
    exact zero_mul _
  simp only [hz, Finset.sum_const_zero]

theorem smallSt_rawDdwNum : QptAnalyzer.rawDdwNum smallSt = fun _ _ _ _ => 0 := by
  funext k n m o
  unfold QptAnalyzer.rawDdwNum
  have hz : ∀ (i : Fin 1) (a : Fin 3) (j : Fin 1) (b : Fin 3),
      QptAnalyzer.gkk02Tensor smallSt k n i a j b m * smallSt.displDDW2 o a b i j = 0 := by
    intro i a j b
    show (0 : Cplx) * _ = 0
    exact zero_mul _
  simp only [hz, Finset.sum_const_zero]

theorem smallSt_fanNumVal : QptAnalyzer.fanNumVal smallSt = fun _ _ _ _ => 0 := by
  show QptAnalyzer.rawFanNum smallSt = fun _ _ _ _ => 0
  exact smallSt_rawFanNum

theorem smallSt_ddwNumVal : QptAnalyzer.ddwNumVal smallSt = fun _ _ _ _ => 0 := by
  show QptAnalyzer.rawDdwNum smallSt = fun _ _ _ _ => 0
  exact smallSt_rawDdwNum

theorem smallStB_fanNumVal : QptAnalyzer.fanNumVal smallStB = fun _ _ _ _ => 0 := by
  show QptAnalyzer.rawFanNum smallStB = fun _ _ _ _ => 0
  funext k n m o
  unfold QptAnalyzer.rawFanNum
  have hz : ∀ (i : Fin 1) (a : Fin 3) (j : Fin 1) (b : Fin 3),
      QptAnalyzer.gkk2Tensor smallStB k n i a j b m * smallStB.displFAN2 o a b i j = 0 := by
    intro i a j b
    show (0 : Cplx) * _ = 0
    exact zero_mul _
  simp only [hz, Finset.sum_const_zero]

theorem smallStB_ddwNumVal :
    QptAnalyzer.ddwNumVal smallStB = fun _ _ _ _ => (⟨9, 0⟩ : Cplx) := by
  show QptAnalyzer.rawDdwNum smallStB = fun _ _ _ _ => (⟨9, 0⟩ : Cplx)
  funext k n m o
  unfold QptAnalyzer.rawDdwNum
  have hone : ∀ (i : Fin 1) (a : Fin 3) (j : Fin 1) (b : Fin 3),
      QptAnalyzer.gkk02Tensor smallStB k n i a j b m * smallStB.displDDW2 o a b i j
        = (⟨1, 0⟩ : Cplx) := by
    intro i a j b
    show ((⟨1, 0⟩ : Cplx)) * (⟨1, 0⟩ : Cplx) = (⟨1, 0⟩ : Cplx)
    apply Cplx.ext' <;> simp
  simp only [hone, Fin.sum_univ_one, Fin.sum_univ_three]
  apply Cplx.ext' <;> simp <;> norm_num

theorem smallSt_fanSternBase :
    ∀ (o : Fin (3 * 1)) (k n : Fin 1),
      QptAnalyzer.fanSternBase smallSt o k n = ⟨0, 9⟩ := by
  intro o k n
  unfold QptAnalyzer.fanSternBase
  have hone : ∀ (a : Fin 1) (b : Fin 3) (i : Fin 1) (j : Fin 3),
      smallSt.eigr2dEIG2D k n a b i j * smallSt.displFAN2 o b j a i
        = (⟨0, 1⟩ : Cplx) := by
    intro a b i j
    show (Cplx.I * (⟨1, 0⟩ : Cplx)) = (⟨0, 1⟩ : Cplx)
    apply Cplx.ext' <;> simp [Cplx.I]
  simp only [hone, Fin.sum_univ_one, Fin.sum_univ_three]
  apply Cplx.ext' <;> simp <;> norm_num

theorem smallSt_ddwSternBase :
    ∀ (o : Fin (3 * 1)) (k n : Fin 1),
      QptAnalyzer.ddwSternBase smallSt o k n = 0 := by
  intro o k n
  unfold QptAnalyzer.ddwSternBase
  have hz : ∀ (a : Fin 1) (b : Fin 3) (i : Fin 1) (j : Fin 3),
      smallSt.eigr2d0EIG2D k n a b i j * smallSt.displDDW2 o b j a i = 0 := by
    intro a b i j
    show (0 : Cplx) * _ = 0
    exact zero_mul _
  simp only [hz, Finset.sum_const_zero]

theorem smallSt_fanCorrQ :
    ∀ (o : Fin (3 * 1)) (k n : Fin 1),
      QptAnalyzer.fanCorrQ smallSt o k n = ⟨0, 9⟩ := by
  intro o k n
  unfold QptAnalyzer.fanCorrQ
  have hone : ∀ (a : Fin 1) (b : Fin 3) (i : Fin 1) (j : Fin 3),
      smallSt.eigi2dEIG2D k n a b i j * smallSt.displFAN2 o b j a i
        = (⟨0, 1⟩ : Cplx) := by
    intro a b i j
    show (Cplx.I * (⟨1, 0⟩ : Cplx)) = (⟨0, 1⟩ : Cplx)
    apply Cplx.ext' <;> simp [Cplx.I]
  simp only [hone, Fin.sum_univ_one, Fin.sum_univ_three]
  apply Cplx.ext' <;> simp <;> norm_num

theorem smallSt_zpbNosplitVal :
    ∀ (k n : Fin 1), QptAnalyzer.zpbNosplitVal smallSt k n = ⟨0, 27 * npPi⟩ := by
  intro k n
  unfold QptAnalyzer.zpbNosplitVal
  have hsum : (∑ o, QptAnalyzer.fanCorrQ smallSt o k n) = ⟨0, 27⟩ := by
    simp only [smallSt_fanCorrQ]
    show (∑ _o : Fin 3, (⟨0, 9⟩ : Cplx)) = ⟨0, 27⟩
    rw [Fin.sum_univ_three]
    apply Cplx.ext' <;> simp <;> norm_num
  rw [hsum]
  show (1 : ℚ) • (npPi • (⟨0, 27⟩ : Cplx)) = ⟨0, 27 * npPi⟩
  apply Cplx.ext' <;> simp <;> ring

end EPC

namespace EPC

variable {nkpt nband natom : ℕ}

theorem tdrPick00_ok (f : Fin 1 → Fin 1 → Fin 1 → Cplx) :
    tdrPick00 (Except.ok f) = f 0 0 0 := rfl

theorem knPick00_ok (f : KN 1 1 Cplx) : knPick00 (Except.ok f) = f 0 0 := rfl

/-! ## C2 (amended) : how the aggregators combine fan and ddw -/

/-- C2 (amended): the aggregators combine their contributions as
`wtq * (fan - ddw)`, but only `get_zpr_static` takes the real part;
`get_zpr_dynamical`, `get_tdr_static` and `get_tdr_dynamical` return the
full complex value; the self-energy aggregators keep the complex value as
the claim says; and the ZPB aggregators take only the active-space fan
term, subtracting no ddw term. -/
theorem aggregator_combination (st : QptAnalyzer nkpt nband natom) :
    (st.has_active = true →
      st.get_zpr_static = Except.ok (make_average st (fun k n =>
        st.wtq * ((QptAnalyzer.activeFanCoreFF st false (QptAnalyzer.occ_nospin_val st)
              (QptAnalyzer.fanNumVal st) k n
            + QptAnalyzer.sternFanVal st false false false k n)
          - (QptAnalyzer.activeDdwCoreFF st (QptAnalyzer.occ_nospin_val st)
              (QptAnalyzer.ddwNumVal st) k n
            + QptAnalyzer.sternDdwVal st false false false k n)).re)))
  ∧ (st.eigr2d_present = true → st.has_active = true → ∀ hk : 0 < nkpt,
      st.get_zpr_dynamical = Except.ok (make_average st (fun k n =>
        st.wtq • ((QptAnalyzer.sternFanVal st false false false k n
            + QptAnalyzer.zprDynFanActive st (fun m => st.fermiF st.mu 0 ⟨0, hk⟩ m)
                (QptAnalyzer.fanNumVal st) k n)
          - (QptAnalyzer.sternDdwVal st false false false k n
            + QptAnalyzer.activeDdwCoreFF st (QptAnalyzer.occ_nospin_val st)
                (QptAnalyzer.ddwNumVal st) k n)))))
  ∧ (st.has_active = true →
      st.get_tdr_static = Except.ok (fun k n t =>
        make_average st (fun k2 n2 =>
          st.wtq • ((QptAnalyzer.sternFanVal st false true false t k2 n2
              + QptAnalyzer.tdrStaticFanAdd st (QptAnalyzer.fanNumVal st) t k2 n2)
            - (QptAnalyzer.sternDdwVal st false true false t k2 n2
              + QptAnalyzer.tdrStaticDdwAdd st (QptAnalyzer.ddwNumVal st) t k2 n2))) k n))
  ∧ (st.has_active = true →
      st.get_tdr_dynamical = Except.ok (fun k n t =>
        make_average st (fun k2 n2 =>
          st.wtq • ((QptAnalyzer.sternFanVal st false true false t k2 n2
              + QptAnalyzer.tdrDynFanAdd st (QptAnalyzer.occ_nospin_val st)
                  (QptAnalyzer.fanNumVal st) t k2 n2)
            - (QptAnalyzer.sternDdwVal st false true false t k2 n2
              + QptAnalyzer.tdrDynDdwAdd st (QptAnalyzer.occ_nospin_val st)
                  (QptAnalyzer.ddwNumVal st) t k2 n2))) k n))
  ∧ (st.has_active = true →
      st.get_zpb_static = Except.ok (make_average st (fun k n =>
        st.wtq • QptAnalyzer.zpbStaticFanAdd st (QptAnalyzer.occ_nospin_val st)
          (QptAnalyzer.fanNumVal st) k n)))
  ∧ (st.has_active = true →
      st.get_zpb_dynamical = Except.ok (make_average st (fun k n =>
        st.wtq • QptAnalyzer.zpbDynFanAdd st (QptAnalyzer.occ_nospin_val st)
          (QptAnalyzer.fanNumVal st) k n)))
  ∧ (st.has_active = true →
      st.get_zp_self_energy = Except.ok (fun k n l =>
        make_average st (fun k2 n2 =>
          st.wtq • ((QptAnalyzer.sternFanVal st false false true l k2 n2
              + QptAnalyzer.zpSigmaFanAdd st (QptAnalyzer.occ_nospin_val st)
                  (QptAnalyzer.fanNumVal st) l k2 n2)
            - (QptAnalyzer.sternDdwVal st false false true l k2 n2
              + QptAnalyzer.zpSigmaDdwAdd st (QptAnalyzer.occ_nospin_val st)
                  (QptAnalyzer.ddwNumVal st) k2 n2))) k n))
  ∧ (st.has_active = true →
      st.get_td_self_energy = Except.ok (fun k n l t =>
        make_average st (fun k2 n2 =>
          st.wtq • ((QptAnalyzer.activeFanCoreTT st (QptAnalyzer.occ_nospin_val st)
                (QptAnalyzer.fanNumVal st) t l k2 n2
              - QptAnalyzer.activeDdwCoreTT st (QptAnalyzer.occ_nospin_val st)
                (QptAnalyzer.ddwNumVal st) t l k2 n2)
            + (QptAnalyzer.sternFanVal st false true true t l k2 n2
              - QptAnalyzer.sternDdwVal st false true true t l k2 n2))) k n)) :=
  ⟨QptAnalyzer.zpr_static_ok st,
    fun he h hk => QptAnalyzer.zpr_dynamical_ok st he h hk,
    QptAnalyzer.tdr_static_ok st, QptAnalyzer.tdr_dynamical_ok st,
    QptAnalyzer.zpb_static_ok st, QptAnalyzer.zpb_dynamical_ok st,
    QptAnalyzer.zp_self_energy_ok st, QptAnalyzer.td_self_energy_ok st⟩

/-- Witness for C2 (amended) at the concrete state `stDefault`. -/
theorem aggregator_combination_witness :
    stDefault.has_active = true
  ∧ stDefault.get_zpb_static = Except.ok (make_average stDefault (fun k n =>
      stDefault.wtq • QptAnalyzer.zpbStaticFanAdd stDefault
        (QptAnalyzer.occ_nospin_val stDefault)
        (QptAnalyzer.fanNumVal stDefault) k n)) :=
  ⟨rfl, (aggregator_combination stDefault).2.2.2.2.1 rfl⟩

/-- Counterexample for C2 as stated: at the concrete one-band state
`smallSt`, `get_tdr_static` returns a value with nonzero imaginary part
(so no real part was taken), and `get_zpb_static` returns the same value
at `smallSt` and at `smallStB` even though their ddw numerators differ
(so no ddw term is subtracted). -/
theorem aggregator_combination_counterexample :
    (tdrPick00 (QptAnalyzer.get_tdr_static smallSt)).im ≠ 0
  ∧ knPick00 (QptAnalyzer.get_zpb_static smallSt)
      = knPick00 (QptAnalyzer.get_zpb_static smallStB)
  ∧ QptAnalyzer.ddwNumVal smallSt 0 0 0 ⟨0, by norm_num⟩
      ≠ QptAnalyzer.ddwNumVal smallStB 0 0 0 ⟨0, by norm_num⟩ := by
  have htdep : ∀ (o : Fin (3 * 1)) (tt : Fin (QptAnalyzer.sternNt smallSt true)),
      QptAnalyzer.sternTdep smallSt true o tt = 1 := by
    intro o tt
    show 2 * (0 : ℚ) + 1 = 1
    norm_num
  have hA : ∀ (t : Fin (QptAnalyzer.sternNt smallSt true)) (k n : Fin 1),
      QptAnalyzer.sternFanVal smallSt false true false t k n = ⟨0, 27⟩ := by
    intro t k n
    show (∑ o : Fin (3 * 1), ∑ _l : Fin 1,
      QptAnalyzer.sternTdep smallSt true o t • QptAnalyzer.fanSternBase smallSt o k n)
        = ⟨0, 27⟩
    simp only [htdep, smallSt_fanSternBase, one_smul, Fin.sum_univ_one]
    show (∑ _o : Fin 3, (⟨0, 9⟩ : Cplx)) = ⟨0, 27⟩
    rw [Fin.sum_univ_three]
    apply Cplx.ext' <;> simp <;> norm_num
  have hC : ∀ (t : Fin (QptAnalyzer.sternNt smallSt true)) (k n : Fin 1),
      QptAnalyzer.sternDdwVal smallSt false true false t k n = 0 := by
    intro t k n
    show (∑ o : Fin (3 * 1), ∑ _l : Fin 1,
      QptAnalyzer.sternTdep smallSt true o t • QptAnalyzer.ddwSternBase smallSt o k n) = 0
    simp only [smallSt_ddwSternBase, smul_zero, Finset.sum_const_zero]
  have hB : ∀ (t : Fin smallSt.ntemp) (k n : Fin 1),
      QptAnalyzer.tdrStaticFanAdd smallSt (QptAnalyzer.fanNumVal smallSt) t k n = 0 := by
    intro t k n
    rw [smallSt_fanNumVal]
    unfold QptAnalyzer.tdrStaticFanAdd
    simp only [smul_zero, Finset.sum_const_zero]
  have hD : ∀ (t : Fin smallSt.ntemp) (k n : Fin 1),
      QptAnalyzer.tdrStaticDdwAdd smallSt (QptAnalyzer.ddwNumVal smallSt) t k n = 0 := by
    intro t k n
    rw [smallSt_ddwNumVal]
    unfold QptAnalyzer.tdrStaticDdwAdd
    simp only [smul_zero, Finset.sum_const_zero]
  have h1 : tdrPick00 (QptAnalyzer.get_tdr_static smallSt) = ⟨0, 27⟩ := by
    rw [QptAnalyzer.tdr_static_ok smallSt rfl, tdrPick00_ok,
      make_average_oneband, hA _ _ _, hB _ _ _, hC _ _ _, hD _ _ _]
    show (1 : ℚ) • (((⟨0, 27⟩ : Cplx) + 0) - (0 + 0)) = ⟨0, 27⟩
    apply Cplx.ext' <;> simp
  have hz1 : knPick00 (QptAnalyzer.get_zpb_static smallSt) = 0 := by
    rw [QptAnalyzer.zpb_static_ok smallSt rfl, knPick00_ok, make_average_oneband,
      smallSt_fanNumVal]
    unfold QptAnalyzer.zpbStaticFanAdd
    simp only [smul_zero, Finset.sum_const_zero]
  have hz2 : knPick00 (QptAnalyzer.get_zpb_static smallStB) = 0 := by
    rw [QptAnalyzer.zpb_static_ok smallStB rfl, knPick00_ok, make_average_oneband,
      smallStB_fanNumVal]
    unfold QptAnalyzer.zpbStaticFanAdd
    simp only [smul_zero, Finset.sum_const_zero]
  refine ⟨?_, ?_, ?_⟩
  · rw [h1]
    show (27 : ℚ) ≠ 0
    norm_num
  · rw [hz1, hz2]
  · rw [smallSt_ddwNumVal, smallStB_ddwNumVal]
    intro hcontra
    have : (0 : ℚ) = 9 := congrArg Cplx.re hcontra
    norm_num at this

/-! ## C7 : the no-split ZPB warning path crashes -/

/-- C7 (code bug): at the concrete state `smallSt` the no-split static ZPB
has imaginary part `27 * pi`, far above `tol12`; the warning branch of
`get_zpb_static_nosplit` then executes `warnings.warn(...format(broadening))`
with `warnings` unimported and `broadening` undefined, so the method raises
`NameError` instead of warning and returning the averaged result. -/
theorem zpb_nosplit_namerror :
    QptAnalyzer.get_zpb_static_nosplit smallSt = Except.error nameErrMsg
  ∧ tol12 < (QptAnalyzer.zpbNosplitVal smallSt 0 0).im := by
  have him : tol12 < (QptAnalyzer.zpbNosplitVal smallSt 0 0).im := by
    rw [smallSt_zpbNosplitVal]
    show tol12 < 27 * npPi
    rw [tol12, npPi]
    norm_num
  refine ⟨?_, him⟩
  unfold QptAnalyzer.get_zpb_static_nosplit
  rw [QptAnalyzer.checkSizeSource_of_present smallSt rfl, exceptBind_ok,
    if_pos ⟨0, 0, him⟩]
  rfl

end EPC
